import Mathlib

/-!
# download-certs: certificate materialisation (`main.go`)

A shallow embedding of `main.go`.  The program reads `CERT_DOMAIN`, fetches the
secret `cert.wildcard.<domain>`, decodes it into a `Certificates` value and
rewrites `<home>/certs/<domain>.key` and `<home>/certs/<domain>.crt` when the key
on disk differs from the key of the bundle.

The process environment, the secret store and the file system are a `World`
that is passed explicitly.  Each call of the program into the operating system
or the secret store appends an `Event` to `World.trace`; each file-system call
also consumes one entry of the failure schedule `World.faults`, so that every
pattern of failing calls can be expressed.
-/

namespace DownloadCerts

/-! ## Data model (`main.go` lines 16-36) -/

/-- `type CertificateType string`. -/
abbrev CertificateType := String

/-- `EndpointCertificate CertificateType = "certificate"`. -/
def EndpointCertificate : CertificateType := "certificate"

/-- `CertificateAuthority CertificateType = "ca"`. -/
def CertificateAuthority : CertificateType := "ca"

/-- `type Certificate struct`.  The two `time.Time` fields are carried as their
Unix nanosecond count; nothing in the program reads them. -/
structure Certificate where
  Pem : String
  CertType : CertificateType
  NotAfterTimeMillis : Int
  NotAfterTime : Int
  NotBeforeInMillis : Int
  NotBeforeTime : Int
  deriving DecidableEq, Repr

/-- `type Certificates struct`. -/
structure Certificates where
  Domain : String
  PrivateKey : String
  Certs : List Certificate
  deriving DecidableEq, Repr

/-! ## The world outside the program -/

/-- An error of the `os` package.  `notExist` stands for every error `err` with
`errors.Is(err, os.ErrNotExist)`; `other errno` for every other one. -/
inductive OsError where
  | notExist
  | other (errno : Nat)
  deriving DecidableEq, Repr

/-- A Go `error` value as the program sees it: one made by `fmt.Errorf`, one
returned by the `os` package, or one returned by the AWS SDK or
`encoding/json`. -/
inductive GoError where
  | errorf (msg : String)
  | os (e : OsError)
  | lib (msg : String)
  deriving DecidableEq, Repr

/-- What a path of the file system holds. -/
inductive Node where
  | file (content : String)
  | dir
  deriving DecidableEq, Repr

/-- An open `*os.File`: the path it was opened at and the offset of the
descriptor.  Offsets and sizes are counted in characters of the content. -/
structure File where
  name : String
  off : Nat
  deriving DecidableEq, Repr

/-- One call of the program into its environment, with its arguments. -/
inductive Event where
  | userHomeDir
  | logPrintf (format : String) (arg : Option GoError)
  | loadDefaultConfig
  | getSecretValue (secretId : String)
  | stat (name : String)
  | mkdir (name : String) (perm : Nat)
  | readFile (name : String)
  | openFile (name : String) (flag : Nat) (perm : Nat)
  | truncate (name : String) (size : Nat)
  | writeString (name : String) (s : String)
  | close (name : String)
  deriving DecidableEq, Repr

/-- The calls that open a file for writing, cut it or write into it. -/
def Event.isFileWrite : Event → Bool
  | .openFile _ _ _ => true
  | .truncate _ _ => true
  | .writeString _ _ => true
  | _ => false

/-- The calls into the file system. -/
def Event.isFsCall : Event → Bool
  | .stat _ => true
  | .mkdir _ _ => true
  | .readFile _ => true
  | .openFile _ _ _ => true
  | .truncate _ _ => true
  | .writeString _ _ => true
  | .close _ => true
  | _ => false

/-- The state the program runs in.

* `env`: the process environment; `none` is an unset variable.
* `userHome`: the result of `os.UserHomeDir`.
* `awsConfig`: the error of `config.LoadDefaultConfig`, if it fails.
* `secrets`: the result of `GetSecretValue` for a secret id: an error, or an
  output whose `SecretString` pointer may be nil (`none`).
* `unmarshal`: `json.Unmarshal` into a `Certificates` value.  The decoder is not
  part of this repository and is taken as given.
* `fs`: the file system, by path.
* `faults`: the failure schedule: `faults n = some e` makes the file-system call
  number `n` fail with `e`.
* `tick`: how many file-system calls have been made.
* `trace`: the calls made so far, oldest first. -/
structure World where
  env : String → Option String
  userHome : Except GoError String
  awsConfig : Option GoError
  secrets : String → Except GoError (Option String)
  unmarshal : String → Except GoError Certificates
  fs : String → Option Node
  faults : Nat → Option OsError
  tick : Nat
  trace : List Event

/-- Record a call that does not touch the file system. -/
def World.emit (w : World) (e : Event) : World :=
  { w with trace := w.trace ++ [e] }

/-- Record a file-system call: it is logged and uses up one entry of the
failure schedule. -/
def World.sys (w : World) (e : Event) : World :=
  { w with tick := w.tick + 1, trace := w.trace ++ [e] }

/-- Replace what `name` holds. -/
def World.setNode (w : World) (name : String) (n : Node) : World :=
  { w with fs := fun p => if p = name then some n else w.fs p }

/-- No file-system call fails by the schedule. -/
def World.NoFaults (w : World) : Prop := ∀ n, w.faults n = none

/-- How the process ends: `main` returns (exit status 0), `log.Fatal` (the error
is logged, exit status 1), or a run-time panic. -/
inductive Outcome where
  | returned
  | fatal (err : GoError)
  | panic
  deriving DecidableEq, Repr

/-! ## The `os` primitives the program calls -/

/-- `os.Getenv`: the value of the variable, the empty string when it is unset. -/
def getenv (key : String) (w : World) : String :=
  match w.env key with
  | some v => v
  | none => ""

/-- `os.UserHomeDir`. -/
def userHomeDir (w : World) : Except GoError String × World :=
  (w.userHome, w.emit .userHomeDir)

/-- `log.Printf`, with the format and the error it prints, if any. -/
def logPrintf (format : String) (arg : Option GoError) (w : World) : World :=
  w.emit (.logPrintf format arg)

/-- `os.Stat`.  The `FileInfo` is dropped: the program never reads it. -/
def stat (name : String) (w : World) : Except OsError Unit × World :=
  let w1 := w.sys (.stat name)
  match w.faults w.tick with
  | some e => (.error e, w1)
  | none =>
    match w.fs name with
    | some _ => (.ok (), w1)
    | none => (.error .notExist, w1)

/-- `os.ModePerm`. -/
def ModePerm : Nat := 0o777

/-- `os.Mkdir`.  An existing path gives `EEXIST`. -/
def mkdir (name : String) (perm : Nat) (w : World) : Option OsError × World :=
  let w1 := w.sys (.mkdir name perm)
  match w.faults w.tick with
  | some e => (some e, w1)
  | none =>
    match w.fs name with
    | some _ => (some (.other 17), w1)
    | none => (none, w1.setNode name .dir)

/-- `os.ReadFile`.  A directory gives `EISDIR`. -/
def readFile (name : String) (w : World) : Except OsError String × World :=
  let w1 := w.sys (.readFile name)
  match w.faults w.tick with
  | some e => (.error e, w1)
  | none =>
    match w.fs name with
    | some (.file c) => (.ok c, w1)
    | some .dir => (.error (.other 21), w1)
    | none => (.error .notExist, w1)

/-- `os.O_RDWR`. -/
def O_RDWR : Nat := 0x2

/-- `os.O_CREATE`. -/
def O_CREATE : Nat := 0x40

/-- `os.O_TRUNC`. -/
def O_TRUNC : Nat := 0x200

/-- `os.OpenFile`, for the flags `O_CREATE` (bit 6) and `O_TRUNC` (bit 9).  A
directory gives `EISDIR`; the descriptor starts at offset 0. -/
def openFile (name : String) (flag : Nat) (perm : Nat) (w : World) :
    Except OsError File × World :=
  let w1 := w.sys (.openFile name flag perm)
  match w.faults w.tick with
  | some e => (.error e, w1)
  | none =>
    match w.fs name with
    | some .dir => (.error (.other 21), w1)
    | some (.file _) =>
      if flag.testBit 9 then (.ok ⟨name, 0⟩, w1.setNode name (.file ""))
      else (.ok ⟨name, 0⟩, w1)
    | none =>
      if flag.testBit 6 then (.ok ⟨name, 0⟩, w1.setNode name (.file ""))
      else (.error .notExist, w1)

/-- The content `c` cut or zero-extended to `size`. -/
def resize (c : String) (size : Nat) : String :=
  ⟨c.data.take size ++ List.replicate (size - c.length) (Char.ofNat 0)⟩

/-- `(*os.File).Truncate`.  The offset of the descriptor does not move. -/
def File.Truncate (f : File) (size : Nat) (w : World) : Option OsError × World :=
  let w1 := w.sys (.truncate f.name size)
  match w.faults w.tick with
  | some e => (some e, w1)
  | none =>
    match w.fs f.name with
    | some (.file c) => (none, w1.setNode f.name (.file (resize c size)))
    | _ => (some (.other 22), w1)

/-- The content `c` with `s` written at offset `off`; a gap past the end is
filled with zeros. -/
def writeAt (c : String) (off : Nat) (s : String) : String :=
  ⟨c.data.take off ++ List.replicate (off - c.length) (Char.ofNat 0) ++ s.data
    ++ c.data.drop (off + s.length)⟩

/-- `(*os.File).WriteString`: writes at the offset of the descriptor and moves
it; a failing call writes nothing.  Returns the descriptor after the call. -/
def File.WriteString (f : File) (s : String) (w : World) :
    Option OsError × File × World :=
  let w1 := w.sys (.writeString f.name s)
  match w.faults w.tick with
  | some e => (some e, f, w1)
  | none =>
    match w.fs f.name with
    | some (.file c) =>
      (none, ⟨f.name, f.off + s.length⟩, w1.setNode f.name (.file (writeAt c f.off s)))
    | _ => (some (.other 9), f, w1)

/-- `(*os.File).Close`. -/
def File.Close (f : File) (w : World) : Option OsError × World :=
  let w1 := w.sys (.close f.name)
  match w.faults w.tick with
  | some e => (some e, w1)
  | none => (none, w1)

/-! ## The program -/

/-- `ensureFolderExists` (lines 126-136). -/
def ensureFolderExists (path : String) (w : World) : Option OsError × World :=
  match stat path w with
  | (.error e, w1) =>
    -- errors.Is(err, os.ErrNotExist)
    if e = .notExist then
      match mkdir path ModePerm w1 with
      | (some err, w2) => (some err, w2)
      | (none, w2) => (none, w2)
    else (none, w1)
  | (.ok _, w1) => (none, w1)

/-- `getRouteSecretsManagerClient` (lines 147-155): the error of
`config.LoadDefaultConfig`, or a client. -/
def getRouteSecretsManagerClient (w : World) : Option GoError × World :=
  (w.awsConfig, w.emit .loadDefaultConfig)

/-- `client.GetSecretValue`. -/
def GetSecretValue (secretId : String) (w : World) :
    Except GoError (Option String) × World :=
  (w.secrets secretId, w.emit (.getSecretValue secretId))

/-- `certsFolderName` of `main` (line 51). -/
def certsFolderName (userHome : String) : String :=
  userHome ++ "/certs"

/-- `certFileName` of `main` (line 52). -/
def certFileName (userHome domain : String) : String :=
  userHome ++ "/certs/" ++ domain ++ ".crt"

/-- `keyFileName` of `main` (line 53). -/
def keyFileName (userHome domain : String) : String :=
  userHome ++ "/certs/" ++ domain ++ ".key"

/-- Lines 44-69 of `main`: the home directory, the secret and its decoding.
Gives the bundle and `userHome`, or how the process ended. -/
def main_fetch (domain : String) (w : World) :
    Except Outcome (Certificates × String) × World :=
  let secretName := "cert.wildcard." ++ domain
  let (userHome, w1) :=
    match userHomeDir w with
    | (.ok h, w1) => (h, w1)
    | (.error err, w1) =>
      ("/root", logPrintf "user home is not defined, defaulting to /root" none
        (logPrintf "%v" (some err) w1))
  match getRouteSecretsManagerClient w1 with
  | (some err, w2) => (.error (.fatal err), w2)
  | (none, w2) =>
    match GetSecretValue secretName w2 with
    | (.error err, w3) => (.error (.fatal err), w3)
    | (.ok none, w3) => (.error .panic, w3)
    | (.ok (some secretString), w3) =>
      match w3.unmarshal secretString with
      | .error err => (.error (.fatal err), w3)
      | .ok certs => (.ok (certs, userHome), w3)

/-- Lines 78-94 of `main`: the value of `needsUpdate`, or the error passed to
`log.Fatal`. -/
def main_needsUpdate (certs : Certificates) (keyFileName : String) (w : World) :
    Except GoError Bool × World :=
  match stat keyFileName w with
  | (.ok _, w1) =>
    match readFile keyFileName w1 with
    | (.error err, w2) => (.error (.os err), w2)
    | (.ok keyBytes, w2) =>
      if certs.PrivateKey ≠ keyBytes then (.ok true, w2) else (.ok false, w2)
  | (.error err, w1) =>
    if err = .notExist then (.ok true, w1) else (.error (.os err), w1)

/-- One of the two loops of lines 111-120: every record of type `ty` is written
to `certF`, followed by a newline.  The result of `WriteString` is dropped. -/
def writeCerts (ty : CertificateType) : File → List Certificate → World → File × World
  | certF, [], w => (certF, w)
  | certF, cert :: rest, w =>
    if cert.CertType = ty then
      match certF.WriteString (cert.Pem ++ "\n") w with
      | (_, certF1, w1) => writeCerts ty certF1 rest w1
    else writeCerts ty certF rest w

/-- Lines 97-122 of `main`, the body of `if needsUpdate`, and the deferred
`Close` calls that run when `main` returns. -/
def main_write (certs : Certificates) (certFileName keyFileName : String) (w : World) :
    Outcome × World :=
  match openFile keyFileName (O_RDWR ||| O_CREATE ||| O_TRUNC) 0o755 w with
  | (.error err, w1) => (.fatal (.os err), w1)
  | (.ok kf, w1) =>
    match kf.Truncate 0 w1 with
    | (_, w2) =>
      match kf.WriteString (certs.PrivateKey ++ "\n") w2 with
      | (_, kf1, w3) =>
        match openFile certFileName (O_RDWR ||| O_CREATE ||| O_TRUNC) 0o755 w3 with
        | (.error err, w4) => (.fatal (.os err), w4)
        | (.ok certF, w4) =>
          match certF.Truncate 0 w4 with
          | (_, w5) =>
            match writeCerts EndpointCertificate certF certs.Certs w5 with
            | (certF1, w6) =>
              match writeCerts CertificateAuthority certF1 certs.Certs w6 with
              | (certF2, w7) =>
                match certF2.Close w7 with
                | (_, w8) =>
                  match kf1.Close w8 with
                  | (_, w9) => (.returned, w9)

/-- Lines 78-122 of `main`: the staleness check and the write phase. -/
def main_sync (certs : Certificates) (certFileName keyFileName : String) (w : World) :
    Outcome × World :=
  match main_needsUpdate certs keyFileName w with
  | (.error err, w1) => (.fatal err, w1)
  | (.ok true, w1) => main_write certs certFileName keyFileName w1
  | (.ok false, w1) => (.returned, w1)

/-- `main` (lines 38-124). -/
def main (w : World) : Outcome × World :=
  let domain := getenv "CERT_DOMAIN" w
  if domain = "" then
    (.fatal (.errorf "CERT_DOMAIN environment must be present"), w)
  else
    match main_fetch domain w with
    | (.error out, w1) => (out, w1)
    | (.ok (certs, userHome), w1) =>
      match ensureFolderExists (certsFolderName userHome) w1 with
      | (some err, w2) => (.fatal (.os err), w2)
      | (none, w2) =>
        main_sync certs (certFileName userHome domain) (keyFileName userHome domain) w2

/-- The world in which the staleness check of `main` runs: the one left by
fetching the bundle and ensuring the `certs` folder. -/
def main_atCheck (userHome domain : String) (w : World) : World :=
  (ensureFolderExists (certsFolderName userHome) (main_fetch domain w).2).2

/-- A new process started in the world the last one left. -/
def nextRun (w : World) : World :=
  { w with trace := [] }

/-! ## What the specification says is written -/

/-- The text written for the records of type `ty`: the PEM text of each, in the
order of the bundle, each followed by a newline. -/
def blocks (ty : CertificateType) (certs : List Certificate) : List String :=
  (certs.filter (fun c => c.CertType = ty)).map (fun c => c.Pem ++ "\n")

/-- The strings of a list one after the other. -/
def concatAll : List String → String
  | [] => ""
  | s :: rest => s ++ concatAll rest

/-- The content of the certificate file as the specification words it: the
blocks of the endpoint certificates, then the blocks of the certificate
authorities. -/
def groupedOutput (certs : List Certificate) : String :=
  concatAll (blocks EndpointCertificate certs ++ blocks CertificateAuthority certs)

/-- The events of `tr` that write to a file. -/
def fileWrites (tr : List Event) : List Event := tr.filter Event.isFileWrite

/-- The events of `tr` that are calls into the file system. -/
def fsCalls (tr : List Event) : List Event := tr.filter Event.isFsCall

/-- The strings passed to `WriteString` on `name`, in the order of the calls. -/
def writtenTo (name : String) : List Event → List String
  | [] => []
  | .writeString n s :: rest => if n = name then s :: writtenTo name rest else writtenTo name rest
  | _ :: rest => writtenTo name rest

/-- The calls of the write phase, in order. -/
def writeEvents (certs : Certificates) (certFileName keyFileName : String) : List Event :=
  [.openFile keyFileName (O_RDWR ||| O_CREATE ||| O_TRUNC) 0o755,
    .truncate keyFileName 0,
    .writeString keyFileName (certs.PrivateKey ++ "\n"),
    .openFile certFileName (O_RDWR ||| O_CREATE ||| O_TRUNC) 0o755,
    .truncate certFileName 0]
  ++ (blocks EndpointCertificate certs.Certs).map (Event.writeString certFileName)
  ++ (blocks CertificateAuthority certs.Certs).map (Event.writeString certFileName)
  ++ [.close certFileName, .close keyFileName]

/-- The record is of one of the two types the program writes. -/
def recognised (c : Certificate) : Bool :=
  c.CertType = EndpointCertificate || c.CertType = CertificateAuthority

/-! ## Example bundles and worlds -/

/-- A bundle with no certificate. -/
def bundleK : Certificates := ⟨"example.com", "K", []⟩

/-- The records of the grouping example: a certificate authority, then two
endpoint certificates. -/
def groupingCerts : List Certificate :=
  [⟨"CA1", CertificateAuthority, 0, 0, 0, 0⟩, ⟨"E1", EndpointCertificate, 0, 0, 0, 0⟩,
    ⟨"E2", EndpointCertificate, 0, 0, 0, 0⟩]

/-- The bundle of the grouping example. -/
def bundleG : Certificates := ⟨"example.com", "K", groupingCerts⟩

/-- A bundle with records of a type the program does not know. -/
def bundleU : Certificates :=
  ⟨"example.com", "K",
    [⟨"X1", "root", 0, 0, 0, 0⟩, ⟨"E1", EndpointCertificate, 0, 0, 0, 0⟩,
      ⟨"X2", "", 0, 0, 0, 0⟩, ⟨"CA1", CertificateAuthority, 0, 0, 0, 0⟩]⟩

/-- An empty file system. -/
def emptyFs : String → Option Node := fun _ => none

/-- A file system with the `certs` folder and a key file of content `c`. -/
def keyFs (c : String) : String → Option Node := fun p =>
  if p = "/home/u/certs" then some .dir
  else if p = "/home/u/certs/example.com.key" then some (.file c)
  else none

/-- A file system with the `certs` folder, a key file of content `k` and a
certificate file of content `c`. -/
def keyCertFs (k c : String) : String → Option Node := fun p =>
  if p = "/home/u/certs" then some .dir
  else if p = "/home/u/certs/example.com.key" then some (.file k)
  else if p = "/home/u/certs/example.com.crt" then some (.file c)
  else none

/-- A schedule in which no call fails. -/
def noFaults : Nat → Option OsError := fun _ => none

/-- A schedule in which exactly the call number `n` fails, with `e`. -/
def faultAt (n : Nat) (e : OsError) : Nat → Option OsError := fun k =>
  if k = n then some e else none

/-- A world with `CERT_DOMAIN=example.com`, the home directory `/home/u`, and a
secret store whose secret `cert.wildcard.example.com` decodes to `b`. -/
def exampleWorld (b : Certificates) (fs : String → Option Node)
    (faults : Nat → Option OsError) : World where
  env := fun k => if k = "CERT_DOMAIN" then some "example.com" else none
  userHome := .ok "/home/u"
  awsConfig := none
  secrets := fun id =>
    if id = "cert.wildcard.example.com" then .ok (some "payload") else .error (.lib "not found")
  unmarshal := fun s => if s = "payload" then .ok b else .error (.lib "bad json")
  fs := fs
  faults := faults
  tick := 0
  trace := []

/-- A world in which `CERT_DOMAIN` is not set. -/
def unsetWorld : World :=
  { exampleWorld bundleK emptyFs noFaults with env := fun _ => none }

/-- A world in which `CERT_DOMAIN` is set to the empty string. -/
def emptyDomainWorld : World :=
  { exampleWorld bundleK emptyFs noFaults with
    env := fun k => if k = "CERT_DOMAIN" then some "" else none }

/-! ## Basic facts about the world -/

@[simp]
theorem sys_fs (w : World) (e : Event) : (w.sys e).fs = w.fs := rfl
@[simp]
theorem sys_faults (w : World) (e : Event) : (w.sys e).faults = w.faults := rfl
@[simp]
theorem sys_tick (w : World) (e : Event) : (w.sys e).tick = w.tick + 1 := rfl
@[simp]
theorem sys_trace (w : World) (e : Event) : (w.sys e).trace = w.trace ++ [e] := rfl
@[simp]
theorem emit_fs (w : World) (e : Event) : (w.emit e).fs = w.fs := rfl
@[simp]
theorem emit_faults (w : World) (e : Event) : (w.emit e).faults = w.faults := rfl
@[simp]
theorem emit_tick (w : World) (e : Event) : (w.emit e).tick = w.tick := rfl
@[simp]
theorem emit_trace (w : World) (e : Event) : (w.emit e).trace = w.trace ++ [e] := rfl
@[simp]
theorem emit_unmarshal (w : World) (e : Event) : (w.emit e).unmarshal = w.unmarshal := rfl
@[simp]
theorem setNode_faults (w : World) (p : String) (n : Node) :
    (w.setNode p n).faults = w.faults := rfl
@[simp]
theorem setNode_tick (w : World) (p : String) (n : Node) :
    (w.setNode p n).tick = w.tick := rfl
@[simp]
theorem setNode_trace (w : World) (p : String) (n : Node) :
    (w.setNode p n).trace = w.trace := rfl
@[simp]
theorem setNode_fs_self (w : World) (p : String) (n : Node) :
    (w.setNode p n).fs p = some n := by simp [World.setNode]
theorem setNode_fs_other (w : World) (p q : String) (n : Node) (h : q ≠ p) :
    (w.setNode p n).fs q = w.fs q := by simp [World.setNode, h]

theorem writeAt_end (c s : String) : writeAt c c.length s = c ++ s := by
  cases c with
  | mk cs =>
    cases s with
    | mk ss =>
      have hd : List.drop (cs.length + ss.length) cs = [] :=
        List.drop_eq_nil_of_le (Nat.le_add_right _ _)
      show (⟨_⟩ : String) = ⟨cs ++ ss⟩
      simp [String.length, hd]

theorem resize_zero (c : String) : resize c 0 = "" := by
  simp [resize]

theorem concatAll_append (xs ys : List String) :
    concatAll (xs ++ ys) = concatAll xs ++ concatAll ys := by
  induction xs with
  | nil => simp [concatAll]
  | cons x xs ih => simp [concatAll, ih, String.append_assoc]

theorem blocks_cons (ty : CertificateType) (cert : Certificate) (rest : List Certificate) :
    blocks ty (cert :: rest) =
      if cert.CertType = ty then (cert.Pem ++ "\n") :: blocks ty rest else blocks ty rest := by
  by_cases h : cert.CertType = ty <;> simp [blocks, h]

/-! ## The primitives: what every call does, failing or not -/

theorem stat_frame (name : String) (w : World) :
    (stat name w).2 = w.sys (.stat name) := by
  unfold stat
  cases w.faults w.tick <;> cases w.fs name <;> rfl

theorem readFile_frame (name : String) (w : World) :
    (readFile name w).2 = w.sys (.readFile name) := by
  unfold readFile
  cases w.faults w.tick with
  | some e => rfl
  | none =>
    cases w.fs name with
    | none => rfl
    | some n => cases n <;> rfl

theorem close_frame (f : File) (w : World) : (f.Close w).2 = w.sys (.close f.name) := by
  unfold File.Close
  cases w.faults w.tick <;> rfl

theorem writeString_frame (f : File) (s : String) (w : World) :
    (f.WriteString s w).2.1.name = f.name ∧
    (f.WriteString s w).2.2.faults = w.faults ∧
    (f.WriteString s w).2.2.tick = w.tick + 1 ∧
    (f.WriteString s w).2.2.trace = w.trace ++ [.writeString f.name s] ∧
    (∀ p, p ≠ f.name → (f.WriteString s w).2.2.fs p = w.fs p) := by
  unfold File.WriteString
  cases w.faults w.tick with
  | some e => simp
  | none =>
    cases h : w.fs f.name with
    | none => simp
    | some n =>
      cases n with
      | dir => simp
      | file c =>
        simp only [sys_faults, setNode_faults, sys_tick, setNode_tick, sys_trace,
          setNode_trace, true_and]
        intro p hp
        rw [setNode_fs_other _ _ _ _ hp, sys_fs]

theorem writeString_ok (f : File) (s c : String) (w : World)
    (hf : w.faults w.tick = none) (hc : w.fs f.name = some (.file c)) :
    (f.WriteString s w).2.1.off = f.off + s.length ∧
    (f.WriteString s w).2.2.fs f.name = some (.file (writeAt c f.off s)) := by
  unfold File.WriteString
  simp [hf, hc]

theorem truncate_frame (f : File) (size : Nat) (w : World) :
    (f.Truncate size w).2.faults = w.faults ∧
    (f.Truncate size w).2.tick = w.tick + 1 ∧
    (f.Truncate size w).2.trace = w.trace ++ [.truncate f.name size] ∧
    (∀ p, p ≠ f.name → (f.Truncate size w).2.fs p = w.fs p) := by
  unfold File.Truncate
  cases w.faults w.tick with
  | some e => simp
  | none =>
    cases h : w.fs f.name with
    | none => simp
    | some n =>
      cases n with
      | dir => simp
      | file c =>
        simp only [sys_faults, setNode_faults, sys_tick, setNode_tick, sys_trace,
          setNode_trace, true_and]
        intro p hp
        rw [setNode_fs_other _ _ _ _ hp, sys_fs]

theorem truncate_ok (f : File) (size : Nat) (c : String) (w : World)
    (hf : w.faults w.tick = none) (hc : w.fs f.name = some (.file c)) :
    (f.Truncate size w).2.fs f.name = some (.file (resize c size)) := by
  unfold File.Truncate
  simp [hf, hc]

/-! ## The write loops -/

theorem writeCerts_frame (ty : CertificateType) (certs : List Certificate) :
    ∀ (f : File) (w : World),
      (writeCerts ty f certs w).1.name = f.name ∧
      (writeCerts ty f certs w).2.faults = w.faults ∧
      (writeCerts ty f certs w).2.tick = w.tick + (blocks ty certs).length ∧
      (writeCerts ty f certs w).2.trace =
        w.trace ++ (blocks ty certs).map (Event.writeString f.name) ∧
      (∀ p, p ≠ f.name → (writeCerts ty f certs w).2.fs p = w.fs p) := by
  induction certs with
  | nil => intro f w; simp [writeCerts, blocks]
  | cons cert rest ih =>
    intro f w
    by_cases h : cert.CertType = ty
    · obtain ⟨hn, hfa, hti, htr, hfs⟩ := writeString_frame f (cert.Pem ++ "\n") w
      obtain ⟨in1, ifa, iti, itr, ifs⟩ :=
        ih (f.WriteString (cert.Pem ++ "\n") w).2.1 (f.WriteString (cert.Pem ++ "\n") w).2.2
      simp only [writeCerts, h, if_true, blocks_cons]
      refine ⟨in1.trans hn, ifa.trans hfa, ?_, ?_, ?_⟩
      · rw [iti, hti]; simp; omega
      · rw [itr, htr, hn]; simp
      · intro p hp
        rw [ifs p (by rw [hn]; exact hp), hfs p hp]
    · simp only [writeCerts, h, if_false, blocks_cons]
      exact ih f w

theorem writeCerts_ok (ty : CertificateType) (certs : List Certificate) :
    ∀ (f : File) (w : World) (c : String), w.NoFaults →
      w.fs f.name = some (.file c) → f.off = c.length →
      (writeCerts ty f certs w).1.off = (c ++ concatAll (blocks ty certs)).length ∧
      (writeCerts ty f certs w).2.fs f.name =
        some (.file (c ++ concatAll (blocks ty certs))) := by
  induction certs with
  | nil => intro f w c _ hc ho; simp [writeCerts, blocks, concatAll, hc, ho]
  | cons cert rest ih =>
    intro f w c hnf hc ho
    by_cases h : cert.CertType = ty
    · obtain ⟨hn, hfa, -, -, -⟩ := writeString_frame f (cert.Pem ++ "\n") w
      obtain ⟨hoff, hfs⟩ := writeString_ok f (cert.Pem ++ "\n") c w (hnf _) hc
      rw [ho, writeAt_end] at hfs
      have hnf1 : (f.WriteString (cert.Pem ++ "\n") w).2.2.NoFaults := by
        intro n; rw [hfa]; exact hnf n
      have := ih (f.WriteString (cert.Pem ++ "\n") w).2.1 (f.WriteString (cert.Pem ++ "\n") w).2.2
        (c ++ (cert.Pem ++ "\n")) hnf1 (by rw [hn]; exact hfs)
        (by rw [hoff, ho]; simp only [String.length_append])
      simp only [writeCerts, h, if_true, blocks_cons, concatAll]
      rw [hn, String.append_assoc] at this
      exact this
    · simp only [writeCerts, h, if_false, blocks_cons]
      exact ih f w c hnf hc ho

/-! ## Opening, and the primitives when they succeed -/

theorem openFlags_trunc : (O_RDWR ||| O_CREATE ||| O_TRUNC).testBit 9 = true := by decide

theorem openFlags_create : (O_RDWR ||| O_CREATE ||| O_TRUNC).testBit 6 = true := by decide

theorem openFile_fault (name : String) (flag perm : Nat) (w : World) (e : OsError)
    (hf : w.faults w.tick = some e) :
    openFile name flag perm w = (.error e, w.sys (.openFile name flag perm)) := by
  unfold openFile
  simp [hf]

theorem openFile_dir (name : String) (flag perm : Nat) (w : World)
    (hf : w.faults w.tick = none) (hd : w.fs name = some .dir) :
    openFile name flag perm w = (.error (.other 21), w.sys (.openFile name flag perm)) := by
  unfold openFile
  simp [hf, hd]

theorem openFile_ok (name : String) (perm : Nat) (w : World)
    (hf : w.faults w.tick = none) (hd : w.fs name ≠ some .dir) :
    openFile name (O_RDWR ||| O_CREATE ||| O_TRUNC) perm w =
      (.ok ⟨name, 0⟩,
        (w.sys (.openFile name (O_RDWR ||| O_CREATE ||| O_TRUNC) perm)).setNode name
          (.file "")) := by
  unfold openFile
  cases h : w.fs name with
  | none => simp only [hf, openFlags_create, if_true]
  | some n =>
    cases n with
    | dir => exact absurd h hd
    | file c => simp only [hf, openFlags_trunc, if_true]

/-! ## The write phase -/

theorem groupedOutput_eq (certs : List Certificate) :
    "" ++ concatAll (blocks EndpointCertificate certs)
      ++ concatAll (blocks CertificateAuthority certs) = groupedOutput certs := by
  rw [groupedOutput, concatAll_append, String.empty_append]

/-- The write phase when both files can be opened: it makes every call of
`writeEvents` and returns, whatever `Truncate` and `WriteString` report; when
no call fails the two files hold the key and the grouped certificates. -/
theorem main_write_opens (certs : Certificates) (cn kn : String) (w : World)
    (hf0 : w.faults w.tick = none) (hk : w.fs kn ≠ some .dir)
    (hf3 : w.faults (w.tick + 3) = none) (hc : w.fs cn ≠ some .dir) (hne : kn ≠ cn) :
    (main_write certs cn kn w).1 = .returned ∧
    (main_write certs cn kn w).2.trace = w.trace ++ writeEvents certs cn kn ∧
    (main_write certs cn kn w).2.faults = w.faults ∧
    (∀ p, p ≠ kn → p ≠ cn → (main_write certs cn kn w).2.fs p = w.fs p) ∧
    (w.NoFaults →
      (main_write certs cn kn w).2.fs kn = some (.file (certs.PrivateKey ++ "\n")) ∧
      (main_write certs cn kn w).2.fs cn = some (.file (groupedOutput certs.Certs))) := by
  have hne2 : cn ≠ kn := fun h => hne h.symm
  unfold main_write
  rw [openFile_ok kn _ w hf0 hk]
  dsimp only
  -- the key file
  have hT := truncate_frame ⟨kn, 0⟩ 0
    ((w.sys (.openFile kn (O_RDWR ||| O_CREATE ||| O_TRUNC) 0o755)).setNode kn (.file ""))
  have hTok := truncate_ok ⟨kn, 0⟩ 0 ""
    ((w.sys (.openFile kn (O_RDWR ||| O_CREATE ||| O_TRUNC) 0o755)).setNode kn (.file ""))
  generalize File.Truncate ⟨kn, 0⟩ 0
    ((w.sys (.openFile kn (O_RDWR ||| O_CREATE ||| O_TRUNC) 0o755)).setNode kn (.file ""))
    = x2 at hT hTok ⊢
  rcases x2 with ⟨r2, w2⟩
  dsimp only at hT hTok ⊢
  obtain ⟨tfa, tti, ttr, tfs⟩ := hT
  simp only [setNode_faults, sys_faults, setNode_tick, sys_tick, setNode_trace, sys_trace,
    setNode_fs_self, forall_const] at tfa tti ttr hTok
  have hS := writeString_frame ⟨kn, 0⟩ (certs.PrivateKey ++ "\n") w2
  have hSok := writeString_ok ⟨kn, 0⟩ (certs.PrivateKey ++ "\n") (resize "" 0) w2
  generalize File.WriteString ⟨kn, 0⟩ (certs.PrivateKey ++ "\n") w2 = x3 at hS hSok ⊢
  rcases x3 with ⟨r3, kf1, w3⟩
  dsimp only at hS hSok ⊢
  obtain ⟨sn, sfa, sti, str, sfs⟩ := hS
  have h3fa : w3.faults = w.faults := sfa.trans tfa
  have h3ti : w3.tick = w.tick + 3 := by rw [sti, tti]
  have h3c : w3.fs cn = w.fs cn := by
    rw [sfs cn hne2, tfs cn hne2, setNode_fs_other _ _ _ _ hne2, sys_fs]
  -- the certificate file
  rw [openFile_ok cn _ w3 (by rw [h3fa, h3ti]; exact hf3) (by rw [h3c]; exact hc)]
  dsimp only
  have hT2 := truncate_frame ⟨cn, 0⟩ 0
    ((w3.sys (.openFile cn (O_RDWR ||| O_CREATE ||| O_TRUNC) 0o755)).setNode cn (.file ""))
  have hT2ok := truncate_ok ⟨cn, 0⟩ 0 ""
    ((w3.sys (.openFile cn (O_RDWR ||| O_CREATE ||| O_TRUNC) 0o755)).setNode cn (.file ""))
  generalize File.Truncate ⟨cn, 0⟩ 0
    ((w3.sys (.openFile cn (O_RDWR ||| O_CREATE ||| O_TRUNC) 0o755)).setNode cn (.file ""))
    = x5 at hT2 hT2ok ⊢
  rcases x5 with ⟨r5, w5⟩
  dsimp only at hT2 hT2ok ⊢
  obtain ⟨ufa, -, utr, ufs⟩ := hT2
  simp only [setNode_faults, sys_faults, setNode_trace, sys_trace,
    setNode_fs_self, forall_const] at ufa utr hT2ok
  have hE := writeCerts_frame EndpointCertificate certs.Certs ⟨cn, 0⟩ w5
  have hEok := writeCerts_ok EndpointCertificate certs.Certs ⟨cn, 0⟩ w5 (resize "" 0)
  generalize writeCerts EndpointCertificate ⟨cn, 0⟩ certs.Certs w5 = x6 at hE hEok ⊢
  rcases x6 with ⟨certF1, w6⟩
  dsimp only at hE hEok ⊢
  obtain ⟨en, efa, -, etr, efs⟩ := hE
  have hA := writeCerts_frame CertificateAuthority certs.Certs certF1 w6
  have hAok := writeCerts_ok CertificateAuthority certs.Certs certF1 w6
    (resize "" 0 ++ concatAll (blocks EndpointCertificate certs.Certs))
  generalize writeCerts CertificateAuthority certF1 certs.Certs w6 = x7 at hA hAok ⊢
  rcases x7 with ⟨certF2, w7⟩
  dsimp only at hA hAok ⊢
  obtain ⟨an, afa, -, atr, afs⟩ := hA
  have hC1 := close_frame certF2 w7
  generalize File.Close certF2 w7 = x8 at hC1 ⊢
  rcases x8 with ⟨r8, w8⟩
  dsimp only at hC1 ⊢
  have hC2 := close_frame kf1 w8
  generalize File.Close kf1 w8 = x9 at hC2 ⊢
  rcases x9 with ⟨r9, w9⟩
  dsimp only at hC2 ⊢
  subst hC2
  subst hC1
  have h5fa : w5.faults = w.faults := by rw [ufa, h3fa]
  refine ⟨rfl, ?_, ?_, ?_, ?_⟩
  · simp only [sys_trace, atr, etr, utr, str, ttr, an, en, sn, writeEvents]
    simp
  · simp only [sys_faults, afa, efa, h5fa]
  · intro p hpk hpc
    simp only [sys_fs]
    rw [afs p (by rw [en]; exact hpc), efs p hpc, ufs p hpc, setNode_fs_other _ _ _ _ hpc,
      sys_fs, sfs p hpk, tfs p hpk, setNode_fs_other _ _ _ _ hpk, sys_fs]
  · intro hnf
    have hnf2 : w2.faults w2.tick = none := by rw [tfa]; exact hnf _
    have hnf5 : w5.NoFaults := fun n => by rw [h5fa]; exact hnf n
    have hnf6 : w6.NoFaults := fun n => by rw [efa, h5fa]; exact hnf n
    have hkey3 := (hSok hnf2 (hTok (hnf _))).2
    have hcert5 := hT2ok (by rw [h3fa]; exact hnf _)
    obtain ⟨eoff, efile⟩ := hEok hnf5 hcert5 (by rw [resize_zero]; rfl)
    rw [← en] at efile
    obtain ⟨-, afile⟩ := hAok hnf6 efile eoff
    simp only [sys_fs]
    constructor
    · rw [afs kn (by rw [en]; exact hne), efs kn hne, ufs kn hne,
        setNode_fs_other _ _ _ _ hne, sys_fs, hkey3, resize_zero]
      show some (Node.file (writeAt "" "".length _)) = _
      rw [writeAt_end, String.empty_append]
    · rw [en] at afile
      rw [afile, resize_zero, groupedOutput_eq]

/-- The write phase when the key file cannot be opened: the process ends in
`log.Fatal` with no further call. -/
theorem main_write_keyOpenError (certs : Certificates) (cn kn : String) (w : World)
    (e : OsError)
    (h : (openFile kn (O_RDWR ||| O_CREATE ||| O_TRUNC) 0o755 w).1 = .error e) :
    main_write certs cn kn w = (.fatal (.os e),
      (openFile kn (O_RDWR ||| O_CREATE ||| O_TRUNC) 0o755 w).2) := by
  unfold main_write
  generalize openFile kn (O_RDWR ||| O_CREATE ||| O_TRUNC) 0o755 w = x at h ⊢
  rcases x with ⟨r, w1⟩
  dsimp only at h ⊢
  subst h
  rfl

theorem openFile_trace (name : String) (flag perm : Nat) (w : World) (e : OsError) :
    (openFile name flag perm w).2.trace = w.trace ++ [.openFile name flag perm] ∧
    ((openFile name flag perm w).1 = .error e →
      (openFile name flag perm w).2.fs = w.fs) := by
  unfold openFile
  cases w.faults w.tick with
  | some e => simp
  | none =>
    cases w.fs name with
    | none => by_cases hb : flag.testBit 6 <;> simp [hb]
    | some n =>
      cases n with
      | dir => simp
      | file c => by_cases hb : flag.testBit 9 <;> simp [hb]

/-- The write phase when the key file is opened and the certificate file is
not, by the schedule or because its path is a directory: the process ends in
`log.Fatal` right after the failed `OpenFile`. -/
theorem main_write_certOpenFails (certs : Certificates) (cn kn : String) (w : World)
    (e : OsError) (hf0 : w.faults w.tick = none) (hk : w.fs kn ≠ some .dir) (hne : kn ≠ cn)
    (hf3 : w.faults (w.tick + 3) = some e ∨
      (w.faults (w.tick + 3) = none ∧ w.fs cn = some .dir ∧ e = .other 21)) :
    (main_write certs cn kn w).1 = .fatal (.os e) ∧
    (main_write certs cn kn w).2.trace = w.trace ++
      [.openFile kn (O_RDWR ||| O_CREATE ||| O_TRUNC) 0o755, .truncate kn 0,
        .writeString kn (certs.PrivateKey ++ "\n"),
        .openFile cn (O_RDWR ||| O_CREATE ||| O_TRUNC) 0o755] := by
  have hne2 : cn ≠ kn := fun h => hne h.symm
  unfold main_write
  rw [openFile_ok kn _ w hf0 hk]
  dsimp only
  have hT := truncate_frame ⟨kn, 0⟩ 0
    ((w.sys (.openFile kn (O_RDWR ||| O_CREATE ||| O_TRUNC) 0o755)).setNode kn (.file ""))
  generalize File.Truncate ⟨kn, 0⟩ 0
    ((w.sys (.openFile kn (O_RDWR ||| O_CREATE ||| O_TRUNC) 0o755)).setNode kn (.file ""))
    = x2 at hT ⊢
  rcases x2 with ⟨r2, w2⟩
  dsimp only at hT ⊢
  obtain ⟨tfa, tti, ttr, tfs⟩ := hT
  simp only [setNode_faults, sys_faults, setNode_tick, sys_tick, setNode_trace,
    sys_trace] at tfa tti ttr
  have hS := writeString_frame ⟨kn, 0⟩ (certs.PrivateKey ++ "\n") w2
  generalize File.WriteString ⟨kn, 0⟩ (certs.PrivateKey ++ "\n") w2 = x3 at hS ⊢
  rcases x3 with ⟨r3, kf1, w3⟩
  dsimp only at hS ⊢
  obtain ⟨-, sfa, sti, str, sfs⟩ := hS
  have h3c : w3.fs cn = w.fs cn := by
    rw [sfs cn hne2, tfs cn hne2, setNode_fs_other _ _ _ _ hne2, sys_fs]
  have hopen : openFile cn (O_RDWR ||| O_CREATE ||| O_TRUNC) 0o755 w3 =
      (.error e, w3.sys (.openFile cn (O_RDWR ||| O_CREATE ||| O_TRUNC) 0o755)) := by
    rcases hf3 with h | ⟨h, hd, he⟩
    · exact openFile_fault cn _ _ w3 e (by rw [sfa, tfa, sti, tti]; exact h)
    · subst he
      exact openFile_dir cn _ _ w3 (by rw [sfa, tfa, sti, tti]; exact h) (by rw [h3c]; exact hd)
  rw [hopen]
  dsimp only
  refine ⟨rfl, ?_⟩
  simp only [sys_trace, str, ttr]
  simp

/-! ## The staleness check -/

theorem stat_present (name : String) (w : World) (n : Node)
    (hf : w.faults w.tick = none) (hn : w.fs name = some n) :
    stat name w = (.ok (), w.sys (.stat name)) := by
  unfold stat
  simp [hf, hn]

theorem stat_absent (name : String) (w : World)
    (hf : w.faults w.tick = none) (hn : w.fs name = none) :
    stat name w = (.error .notExist, w.sys (.stat name)) := by
  unfold stat
  simp [hf, hn]

theorem readFile_present (name : String) (w : World) (c : String)
    (hf : w.faults w.tick = none) (hn : w.fs name = some (.file c)) :
    readFile name w = (.ok c, w.sys (.readFile name)) := by
  unfold readFile
  simp [hf, hn]

theorem needsUpdate_notExist (certs : Certificates) (kn : String) (w : World)
    (h : (stat kn w).1 = .error .notExist) :
    main_needsUpdate certs kn w = (.ok true, w.sys (.stat kn)) := by
  have hw := stat_frame kn w
  unfold main_needsUpdate
  generalize stat kn w = x at h hw ⊢
  rcases x with ⟨r, w1⟩
  dsimp only at h hw ⊢
  subst h
  subst hw
  simp

theorem needsUpdate_statError (certs : Certificates) (kn : String) (w : World) (e : OsError)
    (h : (stat kn w).1 = .error e) (he : e ≠ .notExist) :
    main_needsUpdate certs kn w = (.error (.os e), w.sys (.stat kn)) := by
  have hw := stat_frame kn w
  unfold main_needsUpdate
  generalize stat kn w = x at h hw ⊢
  rcases x with ⟨r, w1⟩
  dsimp only at h hw ⊢
  subst h
  subst hw
  simp [he]

theorem needsUpdate_readError (certs : Certificates) (kn : String) (w : World) (e : OsError)
    (h : (stat kn w).1 = .ok ()) (hr : (readFile kn (w.sys (.stat kn))).1 = .error e) :
    main_needsUpdate certs kn w =
      (.error (.os e), (w.sys (.stat kn)).sys (.readFile kn)) := by
  have hw := stat_frame kn w
  unfold main_needsUpdate
  generalize stat kn w = x at h hw ⊢
  rcases x with ⟨r, w1⟩
  dsimp only at h hw ⊢
  subst h
  subst hw
  dsimp only
  have hw2 := readFile_frame kn (w.sys (.stat kn))
  generalize readFile kn (w.sys (.stat kn)) = y at hr hw2 ⊢
  rcases y with ⟨r2, w2⟩
  dsimp only at hr hw2 ⊢
  subst hr
  subst hw2
  rfl

theorem needsUpdate_read (certs : Certificates) (kn : String) (w : World) (c : String)
    (h : (stat kn w).1 = .ok ()) (hr : (readFile kn (w.sys (.stat kn))).1 = .ok c) :
    main_needsUpdate certs kn w =
      (.ok (decide (certs.PrivateKey ≠ c)), (w.sys (.stat kn)).sys (.readFile kn)) := by
  have hw := stat_frame kn w
  unfold main_needsUpdate
  generalize stat kn w = x at h hw ⊢
  rcases x with ⟨r, w1⟩
  dsimp only at h hw ⊢
  subst h
  subst hw
  dsimp only
  have hw2 := readFile_frame kn (w.sys (.stat kn))
  generalize readFile kn (w.sys (.stat kn)) = y at hr hw2 ⊢
  rcases y with ⟨r2, w2⟩
  dsimp only at hr hw2 ⊢
  subst hr
  subst hw2
  by_cases hc : certs.PrivateKey = c <;> simp [hc]

/-! ## Fetching the bundle and ensuring the folder -/

/-- Fetching the bundle makes no file-system call: the file system, the failure
schedule and the call counter are as before, and the trace gains no call into
the file system. -/
theorem main_fetch_frame (domain : String) (w : World) :
    (main_fetch domain w).2.fs = w.fs ∧
    (main_fetch domain w).2.faults = w.faults ∧
    (main_fetch domain w).2.tick = w.tick ∧
    fsCalls (main_fetch domain w).2.trace = fsCalls w.trace ∧
    fileWrites (main_fetch domain w).2.trace = fileWrites w.trace := by
  unfold main_fetch userHomeDir getRouteSecretsManagerClient GetSecretValue logPrintf
  simp only [World.emit]
  cases w.userHome <;> dsimp only <;> cases w.awsConfig <;> dsimp only <;>
    cases w.secrets ("cert.wildcard." ++ domain) with
    | error err =>
      simp [fsCalls, fileWrites, List.filter_append, Event.isFsCall, Event.isFileWrite]
    | ok o =>
      cases o with
      | none =>
        simp [fsCalls, fileWrites, List.filter_append, Event.isFsCall, Event.isFileWrite]
      | some str =>
        cases hu : w.unmarshal str <;>
          simp [hu, fsCalls, fileWrites, List.filter_append, Event.isFsCall, Event.isFileWrite]

theorem mkdir_frame (name : String) (perm : Nat) (w : World) :
    (mkdir name perm w).2.faults = w.faults ∧
    (mkdir name perm w).2.tick = w.tick + 1 ∧
    (mkdir name perm w).2.trace = w.trace ++ [.mkdir name perm] ∧
    (∀ p, p ≠ name → (mkdir name perm w).2.fs p = w.fs p) := by
  unfold mkdir
  cases w.faults w.tick with
  | some e => simp
  | none =>
    cases h : w.fs name with
    | some n => simp
    | none =>
      simp only [sys_faults, setNode_faults, sys_tick, setNode_tick, sys_trace,
        setNode_trace, true_and]
      intro p hp
      rw [setNode_fs_other _ _ _ _ hp, sys_fs]

theorem ensureFolderExists_present (path : String) (w : World)
    (h : (stat path w).1 = .ok ()) :
    ensureFolderExists path w = (none, w.sys (.stat path)) := by
  have hw := stat_frame path w
  unfold ensureFolderExists
  generalize stat path w = x at h hw ⊢
  rcases x with ⟨r, w1⟩
  dsimp only at h hw ⊢
  subst h
  subst hw
  rfl

theorem ensureFolderExists_notExist (path : String) (w : World)
    (h : (stat path w).1 = .error .notExist) :
    ensureFolderExists path w = mkdir path ModePerm (w.sys (.stat path)) := by
  have hw := stat_frame path w
  unfold ensureFolderExists
  generalize stat path w = x at h hw ⊢
  rcases x with ⟨r, w1⟩
  dsimp only at h hw ⊢
  subst h
  subst hw
  simp only [if_true]
  generalize mkdir path ModePerm (w.sys (.stat path)) = y
  rcases y with ⟨r2, w2⟩
  cases r2 <;> rfl

theorem ensureFolderExists_otherError (path : String) (w : World) (e : OsError)
    (h : (stat path w).1 = .error e) (he : e ≠ .notExist) :
    ensureFolderExists path w = (none, w.sys (.stat path)) := by
  have hw := stat_frame path w
  unfold ensureFolderExists
  generalize stat path w = x at h hw ⊢
  rcases x with ⟨r, w1⟩
  dsimp only at h hw ⊢
  subst h
  subst hw
  simp [he]

/-- `ensureFolderExists` never opens or writes a file, and touches no path but
its own. -/
theorem ensureFolderExists_frame (path : String) (w : World) :
    (ensureFolderExists path w).2.faults = w.faults ∧
    fileWrites (ensureFolderExists path w).2.trace = fileWrites w.trace ∧
    (∀ p, p ≠ path → (ensureFolderExists path w).2.fs p = w.fs p) := by
  cases h : (stat path w).1 with
  | ok u =>
    rw [ensureFolderExists_present path w h]
    simp [fileWrites, List.filter_append, Event.isFileWrite]
  | error e =>
    by_cases he : e = .notExist
    · subst he
      rw [ensureFolderExists_notExist path w h]
      obtain ⟨mfa, -, mtr, mfs⟩ := mkdir_frame path ModePerm (w.sys (.stat path))
      refine ⟨mfa, ?_, ?_⟩
      · rw [mtr]
        simp [fileWrites, List.filter_append, Event.isFileWrite]
      · intro p hp
        rw [mfs p hp, sys_fs]
    · rw [ensureFolderExists_otherError path w e h he]
      simp [fileWrites, List.filter_append, Event.isFileWrite]

/-! ## The three names are different paths -/

theorem keyFileName_ne_certFileName (userHome domain : String) :
    keyFileName userHome domain ≠ certFileName userHome domain := by
  intro h
  have h2 := congrArg String.data h
  simp only [keyFileName, certFileName, String.data_append, List.append_assoc] at h2
  have h3 := List.append_cancel_left (List.append_cancel_left
    (List.append_cancel_left h2))
  exact absurd h3 (by decide)

theorem keyFileName_ne_certsFolderName (userHome domain : String) :
    keyFileName userHome domain ≠ certsFolderName userHome := by
  intro h
  have h2 := congrArg String.length h
  simp only [keyFileName, certsFolderName, String.length_append] at h2
  have h6 : "/certs".length = 6 := by decide
  have h7 : "/certs/".length = 7 := by decide
  have h4 : ".key".length = 4 := by decide
  omega

theorem certFileName_ne_certsFolderName (userHome domain : String) :
    certFileName userHome domain ≠ certsFolderName userHome := by
  intro h
  have h2 := congrArg String.length h
  simp only [certFileName, certsFolderName, String.length_append] at h2
  have h6 : "/certs".length = 6 := by decide
  have h7 : "/certs/".length = 7 := by decide
  have h4 : ".crt".length = 4 := by decide
  omega

/-! ## `main`, step by step -/

theorem main_sync_update (certs : Certificates) (cn kn : String) (w : World)
    (h : (main_needsUpdate certs kn w).1 = .ok true) :
    main_sync certs cn kn w = main_write certs cn kn (main_needsUpdate certs kn w).2 := by
  unfold main_sync
  generalize main_needsUpdate certs kn w = x at h ⊢
  rcases x with ⟨r, w1⟩
  dsimp only at h ⊢
  subst h
  rfl

theorem main_sync_noUpdate (certs : Certificates) (cn kn : String) (w : World)
    (h : (main_needsUpdate certs kn w).1 = .ok false) :
    main_sync certs cn kn w = (.returned, (main_needsUpdate certs kn w).2) := by
  unfold main_sync
  generalize main_needsUpdate certs kn w = x at h ⊢
  rcases x with ⟨r, w1⟩
  dsimp only at h ⊢
  subst h
  rfl

theorem main_sync_error (certs : Certificates) (cn kn : String) (w : World) (err : GoError)
    (h : (main_needsUpdate certs kn w).1 = .error err) :
    main_sync certs cn kn w = (.fatal err, (main_needsUpdate certs kn w).2) := by
  unfold main_sync
  generalize main_needsUpdate certs kn w = x at h ⊢
  rcases x with ⟨r, w1⟩
  dsimp only at h ⊢
  subst h
  rfl

/-- When the domain is set, the bundle is fetched and the folder ensured, `main`
is the staleness check and the write phase on the two file names. -/
theorem main_eq_sync (w : World) (domain userHome : String) (certs : Certificates)
    (hd : getenv "CERT_DOMAIN" w = domain) (hne : domain ≠ "")
    (hfetch : (main_fetch domain w).1 = .ok (certs, userHome))
    (hfolder : (ensureFolderExists (certsFolderName userHome) (main_fetch domain w).2).1
      = none) :
    main w = main_sync certs (certFileName userHome domain) (keyFileName userHome domain)
      (main_atCheck userHome domain w) := by
  unfold main main_atCheck
  simp only [hd, hne, if_false]
  generalize main_fetch domain w = x at hfetch hfolder ⊢
  rcases x with ⟨r, w1⟩
  dsimp only at hfetch hfolder ⊢
  subst hfetch
  dsimp only
  generalize ensureFolderExists (certsFolderName userHome) w1 = y at hfolder ⊢
  rcases y with ⟨r2, w2⟩
  dsimp only at hfolder ⊢
  subst hfolder
  rfl

/-- When the folder cannot be ensured, `main` ends in `log.Fatal` with the error
of `ensureFolderExists`. -/
theorem main_folderError (w : World) (domain userHome : String) (certs : Certificates)
    (err : OsError)
    (hd : getenv "CERT_DOMAIN" w = domain) (hne : domain ≠ "")
    (hfetch : (main_fetch domain w).1 = .ok (certs, userHome))
    (hfolder : (ensureFolderExists (certsFolderName userHome) (main_fetch domain w).2).1
      = some err) :
    main w = (.fatal (.os err), main_atCheck userHome domain w) := by
  unfold main main_atCheck
  simp only [hd, hne, if_false]
  generalize main_fetch domain w = x at hfetch hfolder ⊢
  rcases x with ⟨r, w1⟩
  dsimp only at hfetch hfolder ⊢
  subst hfetch
  dsimp only
  generalize ensureFolderExists (certsFolderName userHome) w1 = y at hfolder ⊢
  rcases y with ⟨r2, w2⟩
  dsimp only at hfolder ⊢
  subst hfolder
  rfl

/-- Up to the staleness check no file is opened or written, and no path but the
`certs` folder changes. -/
theorem main_atCheck_frame (userHome domain : String) (w : World) :
    (main_atCheck userHome domain w).faults = w.faults ∧
    fileWrites (main_atCheck userHome domain w).trace = fileWrites w.trace ∧
    (∀ p, p ≠ certsFolderName userHome → (main_atCheck userHome domain w).fs p = w.fs p) := by
  obtain ⟨ffs, ffa, -, -, fwr⟩ := main_fetch_frame domain w
  obtain ⟨efa, ewr, efs⟩ :=
    ensureFolderExists_frame (certsFolderName userHome) (main_fetch domain w).2
  unfold main_atCheck
  refine ⟨efa.trans ffa, ewr.trans fwr, ?_⟩
  intro p hp
  rw [efs p hp, ffs]

/-! ## The claims -/

/-- C7: when `CERT_DOMAIN` is unset, or set to the empty string, `main` ends in
`log.Fatal` with the world exactly as it was: no client is built, no request is
sent and no file-system call is made, and the two cases end the same way. -/
theorem C7_missing_domain_fatal (w : World)
    (h : w.env "CERT_DOMAIN" = none ∨ w.env "CERT_DOMAIN" = some "") :
    main w = (.fatal (.errorf "CERT_DOMAIN environment must be present"), w) := by
  have hg : getenv "CERT_DOMAIN" w = "" := by
    unfold getenv
    rcases h with h | h <;> rw [h]
  unfold main
  simp only [hg, if_true]

theorem C7_missing_domain_fatal_witness :
    main unsetWorld =
      (.fatal (.errorf "CERT_DOMAIN environment must be present"), unsetWorld) ∧
    main emptyDomainWorld =
      (.fatal (.errorf "CERT_DOMAIN environment must be present"), emptyDomainWorld) :=
  ⟨C7_missing_domain_fatal unsetWorld (Or.inl rfl),
    C7_missing_domain_fatal emptyDomainWorld (Or.inr rfl)⟩

/-- C9: `ensureFolderExists` returns nil after the one `Stat` call when `Stat`
succeeds; when `Stat` reports that the path does not exist it calls `Mkdir`
once and returns the result of `Mkdir` as it is; and an error it returns makes
`main` end in `log.Fatal` with that error. -/
theorem C9_ensureFolderExists (path : String) (w : World) :
    ((stat path w).1 = .ok () →
      ensureFolderExists path w = (none, w.sys (.stat path)) ∧
      (ensureFolderExists path w).2.trace = w.trace ++ [.stat path]) ∧
    ((stat path w).1 = .error .notExist →
      ensureFolderExists path w = mkdir path ModePerm (w.sys (.stat path)) ∧
      (ensureFolderExists path w).2.trace = w.trace ++ [.stat path, .mkdir path ModePerm]) ∧
    (∀ (domain userHome : String) (certs : Certificates) (err : OsError),
      getenv "CERT_DOMAIN" w = domain → domain ≠ "" →
      (main_fetch domain w).1 = .ok (certs, userHome) →
      (ensureFolderExists (certsFolderName userHome) (main_fetch domain w).2).1 = some err →
      (main w).1 = .fatal (.os err)) := by
  refine ⟨?_, ?_, ?_⟩
  · intro h
    rw [ensureFolderExists_present path w h]
    exact ⟨rfl, rfl⟩
  · intro h
    rw [ensureFolderExists_notExist path w h]
    refine ⟨rfl, ?_⟩
    rw [(mkdir_frame path ModePerm (w.sys (.stat path))).2.2.1]
    simp
  · intro domain userHome certs err hd hne hfetch hfolder
    rw [main_folderError w domain userHome certs err hd hne hfetch hfolder]

/-- C2: when the key file holds exactly the private key of the bundle and the
`Stat` and `ReadFile` calls of the staleness check do not fail, `needsUpdate` is
false, `main` returns after these two calls without opening or writing any
file, and the key file and the certificate file are as before, whatever the
certificate file holds. -/
theorem C2_noop_when_key_matches (w : World) (domain userHome : String)
    (certs : Certificates)
    (hd : getenv "CERT_DOMAIN" w = domain) (hne : domain ≠ "")
    (hfetch : (main_fetch domain w).1 = .ok (certs, userHome))
    (hfolder : (ensureFolderExists (certsFolderName userHome) (main_fetch domain w).2).1
      = none)
    (hkey : w.fs (keyFileName userHome domain) = some (.file certs.PrivateKey))
    (hstat : w.faults (main_atCheck userHome domain w).tick = none)
    (hread : w.faults ((main_atCheck userHome domain w).tick + 1) = none) :
    (main_needsUpdate certs (keyFileName userHome domain)
      (main_atCheck userHome domain w)).1 = .ok false ∧
    (main w).1 = .returned ∧
    (main w).2.trace = (main_atCheck userHome domain w).trace ++
      [.stat (keyFileName userHome domain), .readFile (keyFileName userHome domain)] ∧
    fileWrites (main w).2.trace = fileWrites w.trace ∧
    (main w).2.fs (keyFileName userHome domain) = w.fs (keyFileName userHome domain) ∧
    (main w).2.fs (certFileName userHome domain) = w.fs (certFileName userHome domain) := by
  obtain ⟨afa, awr, afs⟩ := main_atCheck_frame userHome domain w
  have heq := main_eq_sync w domain userHome certs hd hne hfetch hfolder
  generalize main_atCheck userHome domain w = w2 at afa awr afs heq hstat hread ⊢
  have hk2 : w2.fs (keyFileName userHome domain) = some (.file certs.PrivateKey) := by
    rw [afs _ (keyFileName_ne_certsFolderName userHome domain)]; exact hkey
  have hs := stat_present (keyFileName userHome domain) w2 _ (by rw [afa]; exact hstat) hk2
  have hr := readFile_present (keyFileName userHome domain)
    (w2.sys (.stat (keyFileName userHome domain))) certs.PrivateKey
    (by rw [sys_faults, sys_tick, afa]; exact hread) (by rw [sys_fs]; exact hk2)
  have hn := needsUpdate_read certs (keyFileName userHome domain) w2 certs.PrivateKey
    (by rw [hs]) (by rw [hr])
  simp only [ne_eq, not_true_eq_false, decide_False] at hn
  rw [heq, main_sync_noUpdate _ _ _ _ (by rw [hn]), hn]
  refine ⟨rfl, rfl, ?_, ?_, ?_, ?_⟩
  · simp
  · simp only [sys_trace, fileWrites, List.filter_append] at awr ⊢
    rw [awr]
    simp [Event.isFileWrite]
  · simp only [sys_fs]
    exact afs _ (keyFileName_ne_certsFolderName userHome domain)
  · simp only [sys_fs]
    exact afs _ (certFileName_ne_certsFolderName userHome domain)

theorem C2_noop_when_key_matches_witness :
    (main (exampleWorld bundleK (keyFs "K") noFaults)).1 = .returned ∧
    fileWrites (main (exampleWorld bundleK (keyFs "K") noFaults)).2.trace = [] :=
  have h := C2_noop_when_key_matches (exampleWorld bundleK (keyFs "K") noFaults)
    "example.com" "/home/u" bundleK rfl (by decide) rfl rfl rfl rfl rfl
  ⟨h.2.1, h.2.2.2.1⟩

theorem C9_ensureFolderExists_witness :
    (ensureFolderExists "/home/u/certs" (exampleWorld bundleK emptyFs noFaults)).2.trace =
      [.stat "/home/u/certs", .mkdir "/home/u/certs" ModePerm] :=
  ((C9_ensureFolderExists "/home/u/certs" (exampleWorld bundleK emptyFs noFaults)).2.1
    rfl).2

/-- The staleness check when no call fails and the key file is missing or holds
something else than the key of the bundle: `needsUpdate` is true. -/
theorem needsUpdate_stale (certs : Certificates) (kn : String) (w : World)
    (hnf : w.NoFaults)
    (hkey : w.fs kn = none ∨ ∃ c, w.fs kn = some (.file c) ∧ c ≠ certs.PrivateKey) :
    ∃ w1, main_needsUpdate certs kn w = (.ok true, w1) ∧ w1.faults = w.faults ∧
      w1.fs = w.fs ∧ fileWrites w1.trace = fileWrites w.trace := by
  rcases hkey with h | ⟨c, h, hc⟩
  · refine ⟨w.sys (.stat kn), ?_, rfl, rfl, ?_⟩
    · apply needsUpdate_notExist
      rw [stat_absent kn w (hnf _) h]
    · simp [fileWrites, List.filter_append, Event.isFileWrite]
  · refine ⟨(w.sys (.stat kn)).sys (.readFile kn), ?_, rfl, rfl, ?_⟩
    · have hn := needsUpdate_read certs kn w c
        (by rw [stat_present kn w _ (hnf _) h])
        (by rw [readFile_present kn (w.sys (.stat kn)) c (hnf _) h])
      have hd : decide (certs.PrivateKey ≠ c) = true :=
        decide_eq_true (fun e => hc e.symm)
      rw [hd] at hn
      exact hn
    · simp [fileWrites, List.filter_append, Event.isFileWrite]

/-- A run of `main` in which no call fails and the key file is stale: both
files are rewritten. -/
theorem main_update_ok (w : World) (domain userHome : String) (certs : Certificates)
    (hd : getenv "CERT_DOMAIN" w = domain) (hne : domain ≠ "")
    (hfetch : (main_fetch domain w).1 = .ok (certs, userHome))
    (hfolder : (ensureFolderExists (certsFolderName userHome) (main_fetch domain w).2).1
      = none)
    (hnf : w.NoFaults)
    (hkey : w.fs (keyFileName userHome domain) = none ∨
      ∃ c, w.fs (keyFileName userHome domain) = some (.file c) ∧ c ≠ certs.PrivateKey)
    (hcert : w.fs (certFileName userHome domain) ≠ some .dir) :
    (main w).1 = .returned ∧
    (main w).2.fs (keyFileName userHome domain) =
      some (.file (certs.PrivateKey ++ "\n")) ∧
    (main w).2.fs (certFileName userHome domain) =
      some (.file (groupedOutput certs.Certs)) ∧
    fileWrites (main w).2.trace = fileWrites w.trace ++
      fileWrites (writeEvents certs (certFileName userHome domain)
        (keyFileName userHome domain)) := by
  obtain ⟨afa, awr, afs⟩ := main_atCheck_frame userHome domain w
  have heq := main_eq_sync w domain userHome certs hd hne hfetch hfolder
  generalize main_atCheck userHome domain w = w2 at afa awr afs heq
  have hkf := afs _ (keyFileName_ne_certsFolderName userHome domain)
  have hcf := afs _ (certFileName_ne_certsFolderName userHome domain)
  have hnf2 : w2.NoFaults := fun n => by rw [afa]; exact hnf n
  obtain ⟨w3, hn, h3fa, h3fs, h3wr⟩ := needsUpdate_stale certs (keyFileName userHome domain)
    w2 hnf2 (by rw [hkf]; exact hkey)
  have hnf3 : w3.NoFaults := fun n => by rw [h3fa]; exact hnf2 n
  have hk3 : w3.fs (keyFileName userHome domain) ≠ some .dir := by
    rw [h3fs, hkf]
    rcases hkey with h | ⟨c, h, -⟩ <;> rw [h] <;> simp
  have hc3 : w3.fs (certFileName userHome domain) ≠ some .dir := by
    rw [h3fs, hcf]; exact hcert
  obtain ⟨r1, r2, -, -, r5⟩ := main_write_opens certs (certFileName userHome domain)
    (keyFileName userHome domain) w3 (hnf3 _) hk3 (hnf3 _) hc3
    (keyFileName_ne_certFileName userHome domain)
  obtain ⟨r5k, r5c⟩ := r5 hnf3
  rw [heq, main_sync_update _ _ _ _ (by rw [hn]), hn]
  refine ⟨r1, r5k, r5c, ?_⟩
  dsimp only
  rw [r2]
  simp only [fileWrites, List.filter_append] at h3wr awr ⊢
  rw [h3wr, awr]

/-- The staleness check when its own calls do not fail and the key file is
missing or holds something else than the key of the bundle: `needsUpdate` is
true, after one or two calls. -/
theorem needsUpdate_stale_local (certs : Certificates) (kn : String) (w : World)
    (hf0 : w.faults w.tick = none) (hf1 : w.faults (w.tick + 1) = none)
    (hkey : w.fs kn = none ∨ ∃ c, w.fs kn = some (.file c) ∧ c ≠ certs.PrivateKey) :
    ∃ w1, main_needsUpdate certs kn w = (.ok true, w1) ∧ w1.faults = w.faults ∧
      w1.fs = w.fs ∧ (w1.tick = w.tick + 1 ∨ w1.tick = w.tick + 2) := by
  rcases hkey with h | ⟨c, h, hc⟩
  · refine ⟨w.sys (.stat kn), ?_, rfl, rfl, Or.inl rfl⟩
    apply needsUpdate_notExist
    rw [stat_absent kn w hf0 h]
  · refine ⟨(w.sys (.stat kn)).sys (.readFile kn), ?_, rfl, rfl, Or.inr rfl⟩
    have hn := needsUpdate_read certs kn w c
      (by rw [stat_present kn w _ hf0 h])
      (by rw [readFile_present kn (w.sys (.stat kn)) c hf1 h])
    have hd : decide (certs.PrivateKey ≠ c) = true :=
      decide_eq_true (fun e => hc e.symm)
    rw [hd] at hn
    exact hn

/-- The staleness check makes at least one file-system call. -/
theorem needsUpdate_tick (certs : Certificates) (kn : String) (w : World) :
    w.tick + 1 ≤ (main_needsUpdate certs kn w).2.tick := by
  cases hs : (stat kn w).1 with
  | error e =>
    by_cases he : e = .notExist
    · subst he
      rw [needsUpdate_notExist certs kn w hs]
      exact Nat.le_refl _
    · rw [needsUpdate_statError certs kn w e hs he]
      exact Nat.le_refl _
  | ok u =>
    cases hr : (readFile kn (w.sys (.stat kn))).1 with
    | error e =>
      rw [needsUpdate_readError certs kn w e hs hr]
      exact Nat.le_succ _
    | ok c =>
      rw [needsUpdate_read certs kn w c hs hr]
      exact Nat.le_succ _

/-- The write phase when the key file is opened, cut and written and the
certificate file cannot be opened: the key file holds the new key and the
certificate path is as it was. -/
theorem main_write_certOpenFails_fs (certs : Certificates) (cn kn : String) (w : World)
    (e : OsError) (hf0 : w.faults w.tick = none) (hf1 : w.faults (w.tick + 1) = none)
    (hf2 : w.faults (w.tick + 2) = none) (hk : w.fs kn ≠ some .dir) (hne : kn ≠ cn)
    (hf3 : w.faults (w.tick + 3) = some e ∨
      (w.faults (w.tick + 3) = none ∧ w.fs cn = some .dir ∧ e = .other 21)) :
    (main_write certs cn kn w).2.fs kn = some (.file (certs.PrivateKey ++ "\n")) ∧
    (main_write certs cn kn w).2.fs cn = w.fs cn := by
  have hne2 : cn ≠ kn := fun h => hne h.symm
  unfold main_write
  rw [openFile_ok kn _ w hf0 hk]
  dsimp only
  have hT := truncate_frame ⟨kn, 0⟩ 0
    ((w.sys (.openFile kn (O_RDWR ||| O_CREATE ||| O_TRUNC) 0o755)).setNode kn (.file ""))
  have hTok := truncate_ok ⟨kn, 0⟩ 0 ""
    ((w.sys (.openFile kn (O_RDWR ||| O_CREATE ||| O_TRUNC) 0o755)).setNode kn (.file ""))
  generalize File.Truncate ⟨kn, 0⟩ 0
    ((w.sys (.openFile kn (O_RDWR ||| O_CREATE ||| O_TRUNC) 0o755)).setNode kn (.file ""))
    = x2 at hT hTok ⊢
  rcases x2 with ⟨r2, w2⟩
  dsimp only at hT hTok ⊢
  obtain ⟨tfa, tti, -, tfs⟩ := hT
  simp only [setNode_faults, sys_faults, setNode_tick, sys_tick,
    setNode_fs_self, forall_const] at tfa tti hTok
  have hS := writeString_frame ⟨kn, 0⟩ (certs.PrivateKey ++ "\n") w2
  have hSok := writeString_ok ⟨kn, 0⟩ (certs.PrivateKey ++ "\n") (resize "" 0) w2
  generalize File.WriteString ⟨kn, 0⟩ (certs.PrivateKey ++ "\n") w2 = x3 at hS hSok ⊢
  rcases x3 with ⟨r3, kf1, w3⟩
  dsimp only at hS hSok ⊢
  obtain ⟨-, sfa, sti, -, sfs⟩ := hS
  have h3c : w3.fs cn = w.fs cn := by
    rw [sfs cn hne2, tfs cn hne2, setNode_fs_other _ _ _ _ hne2, sys_fs]
  have hkey3 := (hSok (by rw [tfa, tti]; exact hf2) (hTok hf1)).2
  have hopen : openFile cn (O_RDWR ||| O_CREATE ||| O_TRUNC) 0o755 w3 =
      (.error e, w3.sys (.openFile cn (O_RDWR ||| O_CREATE ||| O_TRUNC) 0o755)) := by
    rcases hf3 with h | ⟨h, hd, he⟩
    · exact openFile_fault cn _ _ w3 e (by rw [sfa, tfa, sti, tti]; exact h)
    · subst he
      exact openFile_dir cn _ _ w3 (by rw [sfa, tfa, sti, tti]; exact h) (by rw [h3c]; exact hd)
  rw [hopen]
  dsimp only
  simp only [sys_fs]
  refine ⟨?_, h3c⟩
  rw [hkey3, resize_zero]
  show some (Node.file (writeAt "" "".length _)) = _
  rw [writeAt_end, String.empty_append]

/-- C4, as stated, fails in its last clause: in this run the key file holds
`old`, so an update is triggered, and the seventh file-system call, the
`OpenFile` of the certificate file, fails by the schedule; `main` ends in
`log.Fatal` with the key file rewritten and the certificate file holding what
it held. -/
theorem C4_key_only_rewritten :
    (exampleWorld bundleG (keyCertFs "old" "OLDCERT\n") (faultAt 6 (.other 13))).fs
      "/home/u/certs/example.com.key" = some (.file "old") ∧
    (fsCalls (main (exampleWorld bundleG (keyCertFs "old" "OLDCERT\n")
      (faultAt 6 (.other 13)))).2.trace)[6]? =
      some (.openFile "/home/u/certs/example.com.crt" (O_RDWR ||| O_CREATE ||| O_TRUNC)
        0o755) ∧
    (main (exampleWorld bundleG (keyCertFs "old" "OLDCERT\n")
      (faultAt 6 (.other 13)))).1 = .fatal (.os (.other 13)) ∧
    (main (exampleWorld bundleG (keyCertFs "old" "OLDCERT\n")
      (faultAt 6 (.other 13)))).2.fs "/home/u/certs/example.com.key"
      = some (.file "K\n") ∧
    (main (exampleWorld bundleG (keyCertFs "old" "OLDCERT\n")
      (faultAt 6 (.other 13)))).2.fs "/home/u/certs/example.com.crt"
      = some (.file "OLDCERT\n") := by
  refine ⟨?_, ?_, ?_, ?_, ?_⟩ <;> decide

/-- C4, amended: let the key file be missing, or hold something else than the
private key of the bundle.  When no file-system call fails, `main` returns with
the key file holding the private key and a newline and the certificate file
holding the grouped certificates, whatever the two files held, and the calls
that open, cut and write both files are all made.  The two files are not
rewritten as one step: when the calls before the `OpenFile` of the certificate
file succeed and that `OpenFile` fails, `main` ends in `log.Fatal` with the key
file rewritten and the certificate file as it was. -/
theorem C4_update_rewrites_both_amended (w : World) (domain userHome : String)
    (certs : Certificates)
    (hd : getenv "CERT_DOMAIN" w = domain) (hne : domain ≠ "")
    (hfetch : (main_fetch domain w).1 = .ok (certs, userHome))
    (hfolder : (ensureFolderExists (certsFolderName userHome) (main_fetch domain w).2).1
      = none)
    (hkey : w.fs (keyFileName userHome domain) = none ∨
      ∃ c, w.fs (keyFileName userHome domain) = some (.file c) ∧ c ≠ certs.PrivateKey) :
    (w.NoFaults → w.fs (certFileName userHome domain) ≠ some .dir →
      (main w).1 = .returned ∧
      (main w).2.fs (keyFileName userHome domain) =
        some (.file (certs.PrivateKey ++ "\n")) ∧
      (main w).2.fs (certFileName userHome domain) =
        some (.file (groupedOutput certs.Certs)) ∧
      fileWrites (main w).2.trace = fileWrites w.trace ++
        fileWrites (writeEvents certs (certFileName userHome domain)
          (keyFileName userHome domain))) ∧
    (∀ e : OsError,
      (∀ n, n < (main_needsUpdate certs (keyFileName userHome domain)
          (main_atCheck userHome domain w)).2.tick + 3 → w.faults n = none) →
      (w.faults ((main_needsUpdate certs (keyFileName userHome domain)
          (main_atCheck userHome domain w)).2.tick + 3) = some e ∨
        (w.faults ((main_needsUpdate certs (keyFileName userHome domain)
            (main_atCheck userHome domain w)).2.tick + 3) = none ∧
          w.fs (certFileName userHome domain) = some .dir ∧ e = .other 21)) →
      (main w).1 = .fatal (.os e) ∧
      (main w).2.fs (keyFileName userHome domain) =
        some (.file (certs.PrivateKey ++ "\n")) ∧
      (main w).2.fs (certFileName userHome domain) =
        w.fs (certFileName userHome domain)) := by
  refine ⟨fun hnf hcert =>
    main_update_ok w domain userHome certs hd hne hfetch hfolder hnf hkey hcert, ?_⟩
  intro e hpre hfail
  obtain ⟨afa, -, afs⟩ := main_atCheck_frame userHome domain w
  have heq := main_eq_sync w domain userHome certs hd hne hfetch hfolder
  have htick := needsUpdate_tick certs (keyFileName userHome domain)
    (main_atCheck userHome domain w)
  generalize main_atCheck userHome domain w = w2 at afa afs heq hpre hfail htick
  have hkf := afs _ (keyFileName_ne_certsFolderName userHome domain)
  have hcf := afs _ (certFileName_ne_certsFolderName userHome domain)
  obtain ⟨w3, hn, h3fa, h3fs, h3ti⟩ := needsUpdate_stale_local certs
    (keyFileName userHome domain) w2
    (by rw [afa]; exact hpre _ (by omega)) (by rw [afa]; exact hpre _ (by omega))
    (by rw [hkf]; exact hkey)
  rw [hn] at hpre hfail htick
  dsimp only at hpre hfail htick
  have hk3 : w3.fs (keyFileName userHome domain) ≠ some .dir := by
    rw [h3fs, hkf]
    rcases hkey with h | ⟨c, h, -⟩ <;> rw [h] <;> simp
  have hfail3 : w3.faults (w3.tick + 3) = some e ∨
      (w3.faults (w3.tick + 3) = none ∧
        w3.fs (certFileName userHome domain) = some .dir ∧ e = .other 21) := by
    rw [h3fa, afa, h3fs, hcf]
    exact hfail
  have hf : ∀ k, k < 3 → w3.faults (w3.tick + k) = none := fun k hk => by
    rw [h3fa, afa]; exact hpre _ (by omega)
  obtain ⟨r1, -⟩ := main_write_certOpenFails certs (certFileName userHome domain)
    (keyFileName userHome domain) w3 e (hf 0 (by omega)) hk3
    (keyFileName_ne_certFileName userHome domain) hfail3
  obtain ⟨r2, r3⟩ := main_write_certOpenFails_fs certs (certFileName userHome domain)
    (keyFileName userHome domain) w3 e (hf 0 (by omega)) (hf 1 (by omega))
    (hf 2 (by omega)) hk3 (keyFileName_ne_certFileName userHome domain) hfail3
  rw [heq, main_sync_update _ _ _ _ (by rw [hn]), hn]
  refine ⟨r1, r2, ?_⟩
  rw [r3, h3fs, hcf]

theorem C4_update_rewrites_both_amended_witness :
    ((main (exampleWorld bundleG (keyFs "old") noFaults)).2.fs
        "/home/u/certs/example.com.key" = some (.file "K\n") ∧
      (main (exampleWorld bundleG (keyFs "old") noFaults)).2.fs
        "/home/u/certs/example.com.crt" = some (.file "E1\nE2\nCA1\n")) ∧
    ((main (exampleWorld bundleG (keyCertFs "old" "C0") (faultAt 6 (.other 28)))).1
        = .fatal (.os (.other 28)) ∧
      (main (exampleWorld bundleG (keyCertFs "old" "C0") (faultAt 6 (.other 28)))).2.fs
        "/home/u/certs/example.com.key" = some (.file "K\n") ∧
      (main (exampleWorld bundleG (keyCertFs "old" "C0") (faultAt 6 (.other 28)))).2.fs
        "/home/u/certs/example.com.crt" = some (.file "C0")) :=
  have h1 := (C4_update_rewrites_both_amended (exampleWorld bundleG (keyFs "old") noFaults)
    "example.com" "/home/u" bundleG rfl (by decide) rfl rfl
    (Or.inr ⟨"old", rfl, by decide⟩)).1 (fun _ => rfl) (by decide)
  have h2 := (C4_update_rewrites_both_amended
    (exampleWorld bundleG (keyCertFs "old" "C0") (faultAt 6 (.other 28)))
    "example.com" "/home/u" bundleG rfl (by decide) rfl rfl
    (Or.inr ⟨"old", rfl, by decide⟩)).2 (.other 28) (by decide) (Or.inl rfl)
  ⟨⟨h1.2.1, h1.2.2.1⟩, h2⟩

/-- C8: when the bundle has no certificate, no file-system call fails and the
key file is missing or stale, `main` returns with the certificate file present
and empty and the key file holding the private key and a newline. -/
theorem C8_empty_bundle (w : World) (domain userHome : String) (certs : Certificates)
    (hd : getenv "CERT_DOMAIN" w = domain) (hne : domain ≠ "")
    (hfetch : (main_fetch domain w).1 = .ok (certs, userHome))
    (hfolder : (ensureFolderExists (certsFolderName userHome) (main_fetch domain w).2).1
      = none)
    (hempty : certs.Certs = [])
    (hnf : w.NoFaults)
    (hkey : w.fs (keyFileName userHome domain) = none ∨
      ∃ c, w.fs (keyFileName userHome domain) = some (.file c) ∧ c ≠ certs.PrivateKey)
    (hcert : w.fs (certFileName userHome domain) ≠ some .dir) :
    (main w).1 = .returned ∧
    (main w).2.fs (certFileName userHome domain) = some (.file "") ∧
    (main w).2.fs (keyFileName userHome domain) =
      some (.file (certs.PrivateKey ++ "\n")) := by
  obtain ⟨h1, h2, h3, -⟩ :=
    main_update_ok w domain userHome certs hd hne hfetch hfolder hnf hkey hcert
  rw [hempty] at h3
  exact ⟨h1, h3, h2⟩

theorem C8_empty_bundle_witness :
    (main (exampleWorld bundleK emptyFs noFaults)).2.fs "/home/u/certs/example.com.crt"
      = some (.file "") ∧
    (main (exampleWorld bundleK emptyFs noFaults)).2.fs "/home/u/certs/example.com.key"
      = some (.file "K\n") :=
  have h := C8_empty_bundle (exampleWorld bundleK emptyFs noFaults)
    "example.com" "/home/u" bundleK rfl (by decide) rfl rfl rfl (fun _ => rfl)
    (Or.inl rfl) (by decide)
  ⟨h.2.1, h.2.2⟩

/-- C6: at the staleness check, a `Stat` that reports the key file missing gives
`needsUpdate = true` and `main` goes on with the write phase; a `Stat` failing
with another error, or a failing `ReadFile` after a successful `Stat`, makes
`main` end in `log.Fatal` with that error, with no file opened or written and
the key file and the certificate file as before. -/
theorem C6_staleness_check_errors (w : World) (domain userHome : String)
    (certs : Certificates)
    (hd : getenv "CERT_DOMAIN" w = domain) (hne : domain ≠ "")
    (hfetch : (main_fetch domain w).1 = .ok (certs, userHome))
    (hfolder : (ensureFolderExists (certsFolderName userHome) (main_fetch domain w).2).1
      = none) :
    ((stat (keyFileName userHome domain) (main_atCheck userHome domain w)).1
        = .error .notExist →
      (main_needsUpdate certs (keyFileName userHome domain)
        (main_atCheck userHome domain w)).1 = .ok true ∧
      main w = main_write certs (certFileName userHome domain) (keyFileName userHome domain)
        ((main_atCheck userHome domain w).sys (.stat (keyFileName userHome domain)))) ∧
    (∀ e : OsError,
      ((stat (keyFileName userHome domain) (main_atCheck userHome domain w)).1 = .error e ∧
          e ≠ .notExist) ∨
        ((stat (keyFileName userHome domain) (main_atCheck userHome domain w)).1 = .ok () ∧
          (readFile (keyFileName userHome domain)
            ((main_atCheck userHome domain w).sys
              (.stat (keyFileName userHome domain)))).1 = .error e) →
      (main w).1 = .fatal (.os e) ∧
      fileWrites (main w).2.trace = fileWrites w.trace ∧
      (main w).2.fs (keyFileName userHome domain) = w.fs (keyFileName userHome domain) ∧
      (main w).2.fs (certFileName userHome domain) =
        w.fs (certFileName userHome domain)) := by
  obtain ⟨-, awr, afs⟩ := main_atCheck_frame userHome domain w
  have heq := main_eq_sync w domain userHome certs hd hne hfetch hfolder
  generalize main_atCheck userHome domain w = w2 at awr afs heq ⊢
  have hkf := afs _ (keyFileName_ne_certsFolderName userHome domain)
  have hcf := afs _ (certFileName_ne_certsFolderName userHome domain)
  constructor
  · intro h
    have hn := needsUpdate_notExist certs (keyFileName userHome domain) w2 h
    refine ⟨by rw [hn], ?_⟩
    rw [heq, main_sync_update _ _ _ _ (by rw [hn]), hn]
  · intro e h
    have hn : ∃ w3, main_needsUpdate certs (keyFileName userHome domain) w2 =
        (.error (.os e), w3) ∧ w3.fs = w2.fs ∧ fileWrites w3.trace = fileWrites w2.trace := by
      rcases h with ⟨hs, he⟩ | ⟨hs, hr⟩
      · refine ⟨_, needsUpdate_statError certs _ w2 e hs he, rfl, ?_⟩
        simp [fileWrites, List.filter_append, Event.isFileWrite]
      · refine ⟨_, needsUpdate_readError certs _ w2 e hs hr, rfl, ?_⟩
        simp [fileWrites, List.filter_append, Event.isFileWrite]
    obtain ⟨w3, hn, h3fs, h3wr⟩ := hn
    rw [heq, main_sync_error _ _ _ _ (.os e) (by rw [hn]), hn]
    refine ⟨rfl, h3wr.trans awr, ?_, ?_⟩
    · show w3.fs _ = _
      rw [h3fs, hkf]
    · show w3.fs _ = _
      rw [h3fs, hcf]

theorem C6_staleness_check_errors_witness :
    (main (exampleWorld bundleK (keyFs "K") (faultAt 1 (.other 13)))).1
      = .fatal (.os (.other 13)) ∧
    fileWrites (main (exampleWorld bundleK (keyFs "K") (faultAt 1 (.other 13)))).2.trace = [] :=
  have h := (C6_staleness_check_errors (exampleWorld bundleK (keyFs "K") (faultAt 1 (.other 13)))
    "example.com" "/home/u" bundleK rfl (by decide) rfl rfl).2 (.other 13)
    (Or.inl ⟨rfl, by decide⟩)
  ⟨h.1, h.2.1⟩

/-- C3: when the write phase runs and no file-system call fails, the
certificate file holds the PEM text and a newline of every endpoint record in
the order of the bundle, then the PEM text and a newline of every
certificate-authority record in the order of the bundle; for the records
`ca CA1, endpoint E1, endpoint E2` it holds exactly `"E1\nE2\nCA1\n"`. -/
theorem C3_grouping_order (certs : Certificates) (cn kn : String) (w : World)
    (hnf : w.NoFaults) (hk : w.fs kn ≠ some .dir) (hc : w.fs cn ≠ some .dir)
    (hne : kn ≠ cn) :
    (main_write certs cn kn w).2.fs cn = some (.file (groupedOutput certs.Certs)) ∧
    groupedOutput certs.Certs =
      concatAll ((certs.Certs.filter (fun c => c.CertType = "certificate")).map
        (fun c => c.Pem ++ "\n")) ++
      concatAll ((certs.Certs.filter (fun c => c.CertType = "ca")).map
        (fun c => c.Pem ++ "\n")) ∧
    (certs.Certs = groupingCerts →
      (main_write certs cn kn w).2.fs cn = some (.file "E1\nE2\nCA1\n")) := by
  obtain ⟨-, -, -, -, h⟩ := main_write_opens certs cn kn w (hnf _) hk (hnf _) hc hne
  obtain ⟨-, hcn⟩ := h hnf
  refine ⟨hcn, ?_, ?_⟩
  · rw [groupedOutput, concatAll_append]
    rfl
  · intro hg
    rw [hcn, hg]
    rfl

theorem C3_grouping_order_witness :
    (main_write bundleG "/home/u/certs/example.com.crt" "/home/u/certs/example.com.key"
      (exampleWorld bundleG emptyFs noFaults)).2.fs "/home/u/certs/example.com.crt"
      = some (.file "E1\nE2\nCA1\n") :=
  (C3_grouping_order bundleG "/home/u/certs/example.com.crt" "/home/u/certs/example.com.key"
    (exampleWorld bundleG emptyFs noFaults) (fun _ => rfl) (by decide) (by decide)
    (by decide)).2.2 rfl

/-! ## Records of a type the program does not know -/

theorem writtenTo_append (name : String) (xs ys : List Event) :
    writtenTo name (xs ++ ys) = writtenTo name xs ++ writtenTo name ys := by
  induction xs with
  | nil => rfl
  | cons x xs ih =>
    cases x with
    | writeString n t =>
      by_cases h : n = name <;> simp [writtenTo, h, ih]
    | _ => simpa [writtenTo] using ih

theorem writtenTo_map (name : String) (l : List String) :
    writtenTo name (l.map (Event.writeString name)) = l := by
  induction l with
  | nil => rfl
  | cons x xs ih => simp [writtenTo, ih]

theorem writtenTo_writeEvents (certs : Certificates) (cn kn : String) (hne : kn ≠ cn) :
    writtenTo cn (writeEvents certs cn kn) =
      blocks EndpointCertificate certs.Certs ++ blocks CertificateAuthority certs.Certs := by
  unfold writeEvents
  simp only [writtenTo_append, writtenTo_map]
  simp [writtenTo, hne]

theorem blocks_length (ty : CertificateType) (certs : List Certificate) :
    (blocks ty certs).length = certs.countP (fun c => c.CertType = ty) := by
  simp [blocks, List.countP_eq_length_filter]

theorem endpoint_ne_authority : EndpointCertificate ≠ CertificateAuthority := by decide

theorem blocks_filter_recognised (ty : CertificateType)
    (hty : ty = EndpointCertificate ∨ ty = CertificateAuthority) (certs : List Certificate) :
    blocks ty (certs.filter recognised) = blocks ty certs := by
  unfold blocks
  rw [List.filter_filter]
  congr 1
  apply List.filter_congr
  intro c _
  by_cases h : c.CertType = ty
  · rcases hty with h2 | h2 <;> simp [recognised, h, h2]
  · simp [h]

theorem blocks_perm (certs : List Certificate) :
    List.Perm
      (blocks EndpointCertificate certs ++ blocks CertificateAuthority certs)
      ((certs.filter recognised).map (fun c => c.Pem ++ "\n")) := by
  induction certs with
  | nil => simp [blocks]
  | cons c rest ih =>
    by_cases he : c.CertType = EndpointCertificate
    · have hc : c.CertType ≠ CertificateAuthority := by
        rw [he]; exact endpoint_ne_authority
      have hr : recognised c = true := by simp [recognised, he]
      simp only [blocks_cons, he, hc, if_true, if_false, List.filter_cons, hr, List.map_cons,
        List.cons_append]
      exact List.Perm.cons _ ih
    · by_cases hc : c.CertType = CertificateAuthority
      · have hr : recognised c = true := by simp [recognised, hc]
        simp only [blocks_cons, he, hc, if_true, if_false, List.filter_cons, hr, List.map_cons]
        exact List.perm_middle.trans (List.Perm.cons _ ih)
      · have hr : recognised c = false := by simp [recognised, he, hc]
        simp only [blocks_cons, he, hc, if_false, List.filter_cons, hr]
        exact ih

/-- C10: in the write phase, with both files opened, the strings passed to
`WriteString` on the certificate file are the blocks of the endpoint records
followed by the blocks of the certificate-authority records: as many calls as
there are records of these two types, each such record written once, and
nothing for a record of any other type; when no call fails the certificate
file holds what it would hold for the bundle without the other records. -/
theorem C10_unrecognised_dropped (certs : Certificates) (cn kn : String) (w : World)
    (hf0 : w.faults w.tick = none) (hk : w.fs kn ≠ some .dir)
    (hf3 : w.faults (w.tick + 3) = none) (hc : w.fs cn ≠ some .dir) (hne : kn ≠ cn) :
    writtenTo cn ((main_write certs cn kn w).2.trace.drop w.trace.length) =
      blocks EndpointCertificate certs.Certs ++ blocks CertificateAuthority certs.Certs ∧
    (writtenTo cn ((main_write certs cn kn w).2.trace.drop w.trace.length)).length =
      certs.Certs.countP (fun c => c.CertType = "certificate") +
        certs.Certs.countP (fun c => c.CertType = "ca") ∧
    List.Perm (writtenTo cn ((main_write certs cn kn w).2.trace.drop w.trace.length))
      ((certs.Certs.filter
        (fun c => c.CertType = "certificate" || c.CertType = "ca")).map
        (fun c => c.Pem ++ "\n")) ∧
    (w.NoFaults →
      (main_write certs cn kn w).2.fs cn =
        some (.file (groupedOutput (certs.Certs.filter
          (fun c => c.CertType = "certificate" || c.CertType = "ca"))))) := by
  obtain ⟨-, htr, -, -, hcontent⟩ := main_write_opens certs cn kn w hf0 hk hf3 hc hne
  have hw : writtenTo cn ((main_write certs cn kn w).2.trace.drop w.trace.length) =
      blocks EndpointCertificate certs.Certs ++ blocks CertificateAuthority certs.Certs := by
    rw [htr, List.drop_left, writtenTo_writeEvents certs cn kn hne]
  refine ⟨hw, ?_, ?_, ?_⟩
  · rw [hw, List.length_append, blocks_length, blocks_length]
    rfl
  · rw [hw]
    exact blocks_perm certs.Certs
  · intro hnf
    rw [(hcontent hnf).2]
    show _ = some (Node.file (groupedOutput (certs.Certs.filter recognised)))
    rw [groupedOutput, groupedOutput, blocks_filter_recognised _ (Or.inl rfl),
      blocks_filter_recognised _ (Or.inr rfl)]

theorem C10_unrecognised_dropped_witness :
    writtenTo "/home/u/certs/example.com.crt"
      (main_write bundleU "/home/u/certs/example.com.crt" "/home/u/certs/example.com.key"
        (exampleWorld bundleU emptyFs noFaults)).2.trace = ["E1\n", "CA1\n"] :=
  (C10_unrecognised_dropped bundleU "/home/u/certs/example.com.crt"
    "/home/u/certs/example.com.key" (exampleWorld bundleU emptyFs noFaults)
    rfl (by decide) rfl (by decide) (by decide)).1

/-! ## Failing writes -/

/-- C5, as stated, fails: in this run the key file is missing, so an update is
triggered, and the sixth file-system call, the `WriteString` of the key, fails
by the schedule; `main` still opens and writes the certificate file and
returns, leaving an empty key file. -/
theorem C5_write_error_not_fatal :
    (exampleWorld bundleG emptyFs (faultAt 5 (.other 28))).faults 5 = some (.other 28) ∧
    (fsCalls (main (exampleWorld bundleG emptyFs (faultAt 5 (.other 28)))).2.trace)[5]? =
      some (.writeString "/home/u/certs/example.com.key" "K\n") ∧
    (main (exampleWorld bundleG emptyFs (faultAt 5 (.other 28)))).1 = .returned ∧
    (main (exampleWorld bundleG emptyFs (faultAt 5 (.other 28)))).2.fs
      "/home/u/certs/example.com.key" = some (.file "") ∧
    (main (exampleWorld bundleG emptyFs (faultAt 5 (.other 28)))).2.fs
      "/home/u/certs/example.com.crt" = some (.file "E1\nE2\nCA1\n") := by
  refine ⟨rfl, ?_, ?_, ?_, ?_⟩ <;> decide

/-- C5, amended: in a run in which an update is triggered, a failing `OpenFile`
of the key file or of the certificate file ends the process in `log.Fatal`
with that error and no later call; the results of `Truncate` and `WriteString`
are not looked at, so when both files are opened every call of the write phase
is made and `main` returns, whichever of these calls fail. -/
theorem C5_open_fatal_write_ignored (certs : Certificates) (cn kn : String)
    (w w1 : World) (hne : kn ≠ cn)
    (hupd : main_needsUpdate certs kn w = (.ok true, w1)) :
    (∀ e : OsError,
      (openFile kn (O_RDWR ||| O_CREATE ||| O_TRUNC) 0o755 w1).1 = .error e →
      (main_sync certs cn kn w).1 = .fatal (.os e) ∧
      (main_sync certs cn kn w).2.trace =
        w1.trace ++ [.openFile kn (O_RDWR ||| O_CREATE ||| O_TRUNC) 0o755]) ∧
    (w1.faults w1.tick = none → w1.fs kn ≠ some .dir →
      (∀ e : OsError,
        (w1.faults (w1.tick + 3) = some e ∨
          (w1.faults (w1.tick + 3) = none ∧ w1.fs cn = some .dir ∧ e = .other 21)) →
        (main_sync certs cn kn w).1 = .fatal (.os e) ∧
        (main_sync certs cn kn w).2.trace = w1.trace ++
          [.openFile kn (O_RDWR ||| O_CREATE ||| O_TRUNC) 0o755, .truncate kn 0,
            .writeString kn (certs.PrivateKey ++ "\n"),
            .openFile cn (O_RDWR ||| O_CREATE ||| O_TRUNC) 0o755]) ∧
      (w1.faults (w1.tick + 3) = none → w1.fs cn ≠ some .dir →
        (main_sync certs cn kn w).1 = .returned ∧
        (main_sync certs cn kn w).2.trace = w1.trace ++ writeEvents certs cn kn)) := by
  have hs : main_sync certs cn kn w = main_write certs cn kn w1 := by
    rw [main_sync_update _ _ _ _ (by rw [hupd]), hupd]
  rw [hs]
  refine ⟨?_, ?_⟩
  · intro e he
    rw [main_write_keyOpenError certs cn kn w1 e he]
    exact ⟨rfl, (openFile_trace kn _ _ w1 e).1⟩
  · intro hf0 hk
    refine ⟨?_, ?_⟩
    · intro e he
      exact main_write_certOpenFails certs cn kn w1 e hf0 hk hne he
    · intro hf3 hc
      obtain ⟨r1, r2, -⟩ := main_write_opens certs cn kn w1 hf0 hk hf3 hc hne
      exact ⟨r1, r2⟩

theorem C5_open_fatal_write_ignored_witness :
    (main_sync bundleG "/home/u/certs/example.com.crt" "/home/u/certs/example.com.key"
      (exampleWorld bundleG emptyFs (faultAt 2 (.other 28)))).1 = .returned ∧
    (main_sync bundleG "/home/u/certs/example.com.crt" "/home/u/certs/example.com.key"
      (exampleWorld bundleG emptyFs (faultAt 4 (.other 13)))).1 = .fatal (.os (.other 13)) :=
  ⟨(((C5_open_fatal_write_ignored bundleG "/home/u/certs/example.com.crt"
      "/home/u/certs/example.com.key" (exampleWorld bundleG emptyFs (faultAt 2 (.other 28)))
      ((exampleWorld bundleG emptyFs (faultAt 2 (.other 28))).sys
        (.stat "/home/u/certs/example.com.key"))
      (by decide) rfl).2 rfl (by decide)).2 rfl (by decide)).1,
   (((C5_open_fatal_write_ignored bundleG "/home/u/certs/example.com.crt"
      "/home/u/certs/example.com.key" (exampleWorld bundleG emptyFs (faultAt 4 (.other 13)))
      ((exampleWorld bundleG emptyFs (faultAt 4 (.other 13))).sys
        (.stat "/home/u/certs/example.com.key"))
      (by decide) rfl).2 rfl (by decide)).1 (.other 13) (Or.inl rfl)).1⟩

/-! ## Running twice -/

/-- The key is never equal to what the write phase puts into the key file. -/
theorem key_ne_written (key : String) : key ≠ key ++ "\n" := by
  intro h
  have h2 := congrArg String.length h
  rw [String.length_append] at h2
  have h1 : "\n".length = 1 := by decide
  omega

/-- After a write phase in which no call fails, the staleness check finds the
key file stale again, for every bundle. -/
theorem needsUpdate_after_write (certs : Certificates) (cn kn : String) (w : World)
    (hnf : w.NoFaults) (hk : w.fs kn ≠ some .dir) (hc : w.fs cn ≠ some .dir)
    (hne : kn ≠ cn) :
    (main_needsUpdate certs kn (main_write certs cn kn w).2).1 = .ok true := by
  obtain ⟨-, -, hfa, -, h⟩ := main_write_opens certs cn kn w (hnf _) hk (hnf _) hc hne
  obtain ⟨hkey, -⟩ := h hnf
  have hnf2 : (main_write certs cn kn w).2.NoFaults := fun n => by rw [hfa]; exact hnf n
  obtain ⟨w1, hn, -⟩ := needsUpdate_stale certs kn (main_write certs cn kn w).2 hnf2
    (Or.inr ⟨_, hkey, fun e => key_ne_written certs.PrivateKey e.symm⟩)
  rw [hn]

/-- C1 (defect): with an empty file system and a bundle of key `K`, the first run
returns and leaves `K` and a newline in the key file; the staleness check of
the second run compares this with `K`, finds `needsUpdate = true`, and the
second run opens, cuts and writes both files again. -/
theorem C1_second_run_rewrites :
    (main (exampleWorld bundleK emptyFs noFaults)).1 = .returned ∧
    (main (exampleWorld bundleK emptyFs noFaults)).2.fs "/home/u/certs/example.com.key"
      = some (.file "K\n") ∧
    (main_needsUpdate bundleK "/home/u/certs/example.com.key"
      (main_atCheck "/home/u" "example.com"
        (nextRun (main (exampleWorld bundleK emptyFs noFaults)).2))).1 = .ok true ∧
    (main (nextRun (main (exampleWorld bundleK emptyFs noFaults)).2)).1 = .returned ∧
    fileWrites (main (nextRun (main (exampleWorld bundleK emptyFs noFaults)).2)).2.trace =
      [.openFile "/home/u/certs/example.com.key" (O_RDWR ||| O_CREATE ||| O_TRUNC) 0o755,
        .truncate "/home/u/certs/example.com.key" 0,
        .writeString "/home/u/certs/example.com.key" "K\n",
        .openFile "/home/u/certs/example.com.crt" (O_RDWR ||| O_CREATE ||| O_TRUNC) 0o755,
        .truncate "/home/u/certs/example.com.crt" 0] := by
  refine ⟨?_, ?_, rfl, ?_, ?_⟩ <;> decide

end DownloadCerts
